import Mathlib

/-!
A shallow embedding of the SCTP association core of `sctp-proto`
(files `src/association/mod.rs`, `src/packet.rs`, `src/queue/payload_queue.rs`),
together with theorems settling the specification claims about it.

Machine integers (`u32`, `u16`, `usize`) are embedded as `Nat`; wrapping
arithmetic is written with an explicit `% U32` / `% U16` where the source
relies on modular behaviour.  `Instant` is embedded as a millisecond count.
Hash maps are embedded as association lists whose `insert` replaces an
existing binding in place.  Fallible functions return `Except Err`.
Rust `while` loops over serial numbers are embedded as structural recursion
on an explicit bound (the serial distance travelled by the loop counter);
the loop guard is still tested at every step, so the bound never changes
the result of a loop that the source would have finished.
-/

/-- 2^32, the modulus of 32-bit serial number arithmetic. -/
def U32 : Nat := 4294967296

/-- 2^16, the modulus of 16-bit arithmetic. -/
def U16 : Nat := 65536

/-- Modelled from the spec (`util.rs` is not part of the sources):
serial-number less-than on 32-bit values, RFC 1982 comparison mod 2^32
respecting the wrap window of 2^31. -/
def sna32lt (i1 i2 : Nat) : Bool :=
  (i1 < i2 && i2 - i1 < 2147483648) || (i1 > i2 && i1 - i2 > 2147483648)

/-- Modelled from the spec: serial-number less-or-equal on 32-bit values. -/
def sna32lte (i1 i2 : Nat) : Bool :=
  i1 == i2 || sna32lt i1 i2

/-- Modelled from the spec: serial-number greater-than on 32-bit values. -/
def sna32gt (i1 i2 : Nat) : Bool :=
  (i1 < i2 && i2 - i1 ≥ 2147483648) || (i1 > i2 && i1 - i2 ≤ 2147483648)

/-- Modelled from the spec: serial-number greater-or-equal on 32-bit values. -/
def sna32gte (i1 i2 : Nat) : Bool :=
  i1 == i2 || sna32gt i1 i2

/-- Modelled from the spec: serial-number less-than on 16-bit values. -/
def sna16lt (i1 i2 : Nat) : Bool :=
  (i1 < i2 && i2 - i1 < 32768) || (i1 > i2 && i1 - i2 > 32768)

/-- Modelled from the spec: payload protocol identifier; the embedding only
needs to distinguish DCEP (always-reliable) chunks from the rest. -/
inductive PayloadProtocolIdentifier
  | dcep
  | unknown
  deriving DecidableEq

/-- Modelled from the spec (`chunk_payload_data.rs` is not part of the
sources): a DATA chunk in flight or pending, with the attributes listed in
the spec data model.  `abandoned_flag`/`all_inflight` back the source's
`abandoned()`/`set_abandoned`/`set_all_inflight` accessors. -/
structure ChunkPayloadData where
  tsn : Nat := 0
  stream_identifier : Nat := 0
  stream_sequence_number : Nat := 0
  payload_type : PayloadProtocolIdentifier := .unknown
  user_data : List Nat := []
  beginning_fragment : Bool := false
  ending_fragment : Bool := false
  unordered : Bool := false
  immediate_sack : Bool := false
  nsent : Nat := 0
  acked : Bool := false
  retransmit : Bool := false
  abandoned_flag : Bool := false
  all_inflight : Bool := false
  miss_indicator : Nat := 0
  since : Option Nat := none
  deriving DecidableEq

/-- Modelled from the spec: a chunk counts as abandoned once it is marked
abandoned and all its fragments are in flight. -/
def ChunkPayloadData.abandoned (c : ChunkPayloadData) : Bool :=
  c.abandoned_flag && c.all_inflight

/-- Modelled from the spec: `set_abandoned`. -/
def ChunkPayloadData.set_abandoned (c : ChunkPayloadData) (b : Bool) : ChunkPayloadData :=
  { c with abandoned_flag := b }

/-- Modelled from the spec: `set_all_inflight`. -/
def ChunkPayloadData.set_all_inflight (c : ChunkPayloadData) : ChunkPayloadData :=
  { c with all_inflight := true }

/-- Lookup in an association list embedding a hash map keyed by `Nat`. -/
def alistGet {β : Type} (m : List (Nat × β)) (k : Nat) : Option β :=
  (m.find? fun kv => kv.fst == k).map Prod.snd

/-- Key membership in an association list. -/
def alistContains {β : Type} (m : List (Nat × β)) (k : Nat) : Bool :=
  m.any fun kv => kv.fst == k

/-- Insertion in an association list: replaces the binding in place when the
key is present (hash-map `insert` semantics), appends otherwise. -/
def alistInsert {β : Type} (m : List (Nat × β)) (k : Nat) (v : β) : List (Nat × β) :=
  if alistContains m k then
    m.map fun kv => if kv.fst == k then (k, v) else kv
  else
    m ++ [(k, v)]

/-- Removal from an association list (hash-map `remove` semantics). -/
def alistRemove {β : Type} (m : List (Nat × β)) (k : Nat) : List (Nat × β) :=
  m.filter fun kv => !(kv.fst == k)

/-- Modelled from the spec (`chunk_selective_ack.rs` is not part of the
sources): a gap ack block, a pair of 16-bit offsets from the cumulative
TSN ack. -/
structure GapAckBlock where
  start : Nat := 0
  ending : Nat := 0
  deriving DecidableEq

/-- Modelled from the spec: the SACK chunk contents consumed and produced by
the association. -/
structure ChunkSelectiveAck where
  cumulative_tsn_ack : Nat := 0
  advertised_receiver_window_credit : Nat := 0
  gap_ack_blocks : List GapAckBlock := []
  duplicate_tsn : List Nat := []
  deriving DecidableEq

/-- Insert into a list sorted by `sna32lt`, the comparator of
`update_sorted_keys`. -/
def snaInsert (x : Nat) : List Nat → List Nat
  | [] => [x]
  | y :: ys => if sna32lt x y then x :: y :: ys else y :: snaInsert x ys

/-- The `update_sorted_keys` sort (`sort_by` with the `sna32lt` comparator),
embedded as an insertion sort with the same comparator: the embedding
preserves exactly what the claims rely on, namely that sorting permutes the
keys. -/
def updateSortedKeys (l : List Nat) : List Nat :=
  l.foldr snaInsert []

/-- `PayloadQueue` from `queue/payload_queue.rs`: chunks keyed by TSN plus
the sorted key list, the duplicate-TSN log and the byte counter. -/
structure PayloadQueue where
  chunk_map : List (Nat × ChunkPayloadData) := []
  sorted : List Nat := []
  dup_tsn : List Nat := []
  n_bytes : Nat := 0
  deriving DecidableEq

/-- `PayloadQueue::can_push`. -/
def PayloadQueue.can_push (q : PayloadQueue) (p : ChunkPayloadData) (cumulative_tsn : Nat) : Bool :=
  !(alistContains q.chunk_map p.tsn || sna32lte p.tsn cumulative_tsn)

/-- `PayloadQueue::push_no_check`. -/
def PayloadQueue.push_no_check (q : PayloadQueue) (p : ChunkPayloadData) : PayloadQueue :=
  { q with
    n_bytes := q.n_bytes + p.user_data.length
    sorted := updateSortedKeys (q.sorted ++ [p.tsn])
    chunk_map := alistInsert q.chunk_map p.tsn p }

/-- `PayloadQueue::push`: returns the updated queue and whether the chunk was
stored (`false` means it was logged as a duplicate instead). -/
def PayloadQueue.push (q : PayloadQueue) (p : ChunkPayloadData) (cumulative_tsn : Nat) :
    PayloadQueue × Bool :=
  if alistContains q.chunk_map p.tsn || sna32lte p.tsn cumulative_tsn then
    ({ q with dup_tsn := q.dup_tsn ++ [p.tsn] }, false)
  else
    ({ q with
        n_bytes := q.n_bytes + p.user_data.length
        sorted := updateSortedKeys (q.sorted ++ [p.tsn])
        chunk_map := alistInsert q.chunk_map p.tsn p }, true)

/-- `PayloadQueue::pop`: pops only when the given TSN is the oldest key. -/
def PayloadQueue.pop (q : PayloadQueue) (tsn : Nat) : Option ChunkPayloadData × PayloadQueue :=
  match q.sorted with
  | [] => (none, q)
  | t0 :: rest =>
    if tsn == t0 then
      match alistGet q.chunk_map tsn with
      | some c =>
        (some c,
         { q with
            sorted := rest
            chunk_map := alistRemove q.chunk_map tsn
            n_bytes := q.n_bytes - c.user_data.length })
      | none => (none, { q with sorted := rest, chunk_map := alistRemove q.chunk_map tsn })
    else (none, q)

/-- `PayloadQueue::get`. -/
def PayloadQueue.get (q : PayloadQueue) (tsn : Nat) : Option ChunkPayloadData :=
  alistGet q.chunk_map tsn

/-- The write-back half of `PayloadQueue::get_mut`: store a modified chunk
under its (existing) TSN. -/
def PayloadQueue.setChunk (q : PayloadQueue) (tsn : Nat) (c : ChunkPayloadData) : PayloadQueue :=
  { q with chunk_map := alistInsert q.chunk_map tsn c }

/-- `PayloadQueue::pop_duplicates`: drains the duplicate-TSN log. -/
def PayloadQueue.pop_duplicates (q : PayloadQueue) : List Nat × PayloadQueue :=
  (q.dup_tsn, { q with dup_tsn := [] })

/-- `PayloadQueue::mark_as_acked`: frees the body, keeps the slot, returns
the freed byte count. -/
def PayloadQueue.mark_as_acked (q : PayloadQueue) (tsn : Nat) : Nat × PayloadQueue :=
  match alistGet q.chunk_map tsn with
  | some c =>
    let n := c.user_data.length
    (n,
     { q with
        chunk_map := alistInsert q.chunk_map tsn
          { c with acked := true, retransmit := false, user_data := [] }
        n_bytes := q.n_bytes - n })
  | none => (0, q)

/-- `PayloadQueue::get_last_tsn_received`. -/
def PayloadQueue.get_last_tsn_received (q : PayloadQueue) : Option Nat :=
  q.sorted.getLast?

/-- `PayloadQueue::mark_all_to_retrasmit` (source spelling): set the
retransmit flag on every chunk that is neither acked nor abandoned. -/
def PayloadQueue.mark_all_to_retrasmit (q : PayloadQueue) : PayloadQueue :=
  { q with
    chunk_map := q.chunk_map.map fun kv =>
      if kv.snd.acked || kv.snd.abandoned then kv
      else (kv.fst, { kv.snd with retransmit := true }) }

/-- `PayloadQueue::get_num_bytes`. -/
def PayloadQueue.get_num_bytes (q : PayloadQueue) : Nat :=
  q.n_bytes

/-- `PayloadQueue::len`. -/
def PayloadQueue.len (q : PayloadQueue) : Nat :=
  q.chunk_map.length

/-- `PayloadQueue::is_empty`. -/
def PayloadQueue.is_empty (q : PayloadQueue) : Bool :=
  q.len == 0

/-- `PayloadQueue::get_gap_ack_blocks`: fold over the sorted keys building
maximal runs of consecutive 16-bit offsets from the cumulative TSN. -/
def PayloadQueue.get_gap_ack_blocks (q : PayloadQueue) (cumulative_tsn : Nat) :
    List GapAckBlock :=
  if q.chunk_map.isEmpty then []
  else
    let step : (GapAckBlock × List GapAckBlock × Bool) → Nat →
        (GapAckBlock × List GapAckBlock × Bool) :=
      fun st tsn =>
        let b := st.fst
        let acc := st.snd.fst
        let first := st.snd.snd
        let diff := if tsn ≥ cumulative_tsn then (tsn - cumulative_tsn) % U16 else 0
        if first then ({ start := diff, ending := diff }, acc, false)
        else if (b.ending + 1) % U16 == diff then
          ({ b with ending := (b.ending + 1) % U16 }, acc, false)
        else ({ start := diff, ending := diff }, acc ++ [b], false)
    let r := q.sorted.foldl step ({ start := 0, ending := 0 }, [], true)
    r.snd.fst ++ [r.fst]

/-- Modelled from the spec (`association/state.rs` is not part of the
sources): the association state machine states. -/
inductive AssociationState
  | closed
  | cookieWait
  | cookieEchoed
  | established
  | shutdownAckSent
  | shutdownPending
  | shutdownReceived
  | shutdownSent
  deriving DecidableEq

/-- Modelled from the spec: the acknowledgement state. -/
inductive AckState
  | idle
  | immediate
  | delay
  deriving DecidableEq

/-- Modelled from the spec: the (test-only) acknowledgement mode. -/
inductive AckMode
  | normal
  | noDelay
  | alwaysDelay
  deriving DecidableEq

/-- Modelled from the spec: per-stream reliability type for PR-SCTP. -/
inductive ReliabilityType
  | reliable
  | rexmit
  | timed
  deriving DecidableEq

/-- Modelled from the spec (`association/timer.rs` is not part of the
sources): the five logical timers. -/
inductive Timer
  | t1Init
  | t1Cookie
  | t2Shutdown
  | t3RTX
  | ack
  | reconfig
  deriving DecidableEq

/-- Modelled from the spec: the timer table, recording for each timer the
instant it is armed to fire at (`none` when stopped). -/
structure TimerTable where
  t1Init : Option Nat := none
  t1Cookie : Option Nat := none
  t2Shutdown : Option Nat := none
  t3RTX : Option Nat := none
  ack : Option Nat := none
  reconfig : Option Nat := none
  deriving DecidableEq

/-- Modelled from the spec: write one timer slot. -/
def TimerTable.set (tt : TimerTable) (t : Timer) (v : Option Nat) : TimerTable :=
  match t with
  | .t1Init => { tt with t1Init := v }
  | .t1Cookie => { tt with t1Cookie := v }
  | .t2Shutdown => { tt with t2Shutdown := v }
  | .t3RTX => { tt with t3RTX := v }
  | .ack => { tt with ack := v }
  | .reconfig => { tt with reconfig := v }

/-- Modelled from the spec: stop a timer. -/
def TimerTable.stop (tt : TimerTable) (t : Timer) : TimerTable :=
  tt.set t none

/-- Modelled from the spec: start a timer to fire `interval` ms after `now`. -/
def TimerTable.start (tt : TimerTable) (t : Timer) (now interval : Nat) : TimerTable :=
  tt.set t (some (now + interval))

/-- Modelled from the spec: the delayed-ack interval, 200 ms. -/
def ACK_INTERVAL : Nat := 200

/-- Modelled from the spec: reasons an association may be lost. -/
inductive AssociationError
  | handshakeFailed
  | transportError
  | associationClosed
  | applicationClosed
  | resetByPeer
  | timedOut
  | locallyClosed
  deriving DecidableEq

/-- Modelled from the spec: stream events surfaced to the application. -/
inductive StreamEvent
  | readable (id : Nat)
  | opened
  | bufferedAmountLow (id : Nat)
  deriving DecidableEq

/-- Modelled from the spec: application events. -/
inductive Event
  | connected
  | associationLost (reason : AssociationError)
  | stream (se : StreamEvent)
  | datagramReceived
  deriving DecidableEq

/-- The error values returned by the embedded fallible functions
(`error.rs` is not part of the sources; the constructors used by the
embedded code paths are modelled from the spec). -/
inductive Err
  | errInflightQueueTsnPop
  | errTsnRequestNotExist
  | errHandleInitState
  | errSctpPacketSourcePortZero
  | errSctpPacketDestinationPortZero
  | errInitChunkBundled
  | errInitChunkVerifyTagNotZero
  deriving DecidableEq

/-- Modelled from the spec (`association/stream.rs` is not part of the
sources): the per-stream state the embedded association functions touch:
reliability configuration and the receive reassembly queue. -/
structure StreamState where
  reliability_type : ReliabilityType := .reliable
  reliability_value : Nat := 0
  reassembly : List ChunkPayloadData := []
  deriving DecidableEq

/-- Modelled from the spec: bytes held by a stream's reassembly queue. -/
def StreamState.get_num_bytes_in_reassembly_queue (s : StreamState) : Nat :=
  (s.reassembly.map fun c => c.user_data.length).sum

/-- Modelled from the spec: a stream stores an arriving chunk in its
reassembly queue. -/
def StreamState.handle_data (s : StreamState) (c : ChunkPayloadData) : StreamState :=
  { s with reassembly := s.reassembly ++ [c] }

/-- Modelled from the spec: the reassembly queue is readable once it holds a
complete message (here: an unfragmented one). -/
def StreamState.is_readable (s : StreamState) : Bool :=
  s.reassembly.any fun c => c.beginning_fragment && c.ending_fragment

/-- Modelled from the spec (`param/param_outgoing_reset_request.rs` is not
part of the sources): an outgoing stream reset request parameter. -/
structure ParamOutgoingResetRequest where
  reconfig_request_sequence_number : Nat := 0
  reconfig_response_sequence_number : Nat := 0
  sender_last_tsn : Nat := 0
  stream_identifiers : List Nat := []
  deriving DecidableEq

/-- Modelled from the spec: result code of a RECONFIG response. -/
inductive ReconfigResult
  | successPerformed
  | inProgress
  deriving DecidableEq

/-- Chunks of the packets the embedded association functions build
(structured, in place of the marshalled bytes). -/
inductive OutChunk
  | initAck (initial_tsn initiate_tag a_rwnd num_outbound num_inbound cookie : Nat)
  | cookieAck
  | sack (c : ChunkSelectiveAck)
  | reconfigResetRequest (rsn resp_rsn last_tsn : Nat) (sids : List Nat)
  | reconfigResponse (resp_seq : Nat) (result : ReconfigResult)
  | data (c : ChunkPayloadData)
  deriving DecidableEq

/-- A packet built by the embedded association functions. -/
structure OutPacket where
  source_port : Nat := 0
  destination_port : Nat := 0
  verification_tag : Nat := 0
  chunks : List OutChunk := []
  deriving DecidableEq

/-- The chunk type tags `check_packet` dispatches on: `ChunkInit` carries
the `is_ack` flag distinguishing INIT from INIT-ACK. -/
inductive SChunk
  | chInit (is_ack : Bool)
  | chSack
  | chData
  | chCookieEcho
  | chCookieAck
  | chHeartbeat
  | chAbort
  | chShutdown
  | chShutdownAck
  | chShutdownComplete
  | chError
  | chReconfig
  | chForwardTsn
  deriving DecidableEq

/-- An inbound `Packet` as seen by `check_packet` and the chunk handlers:
the common header plus the chunk list. -/
structure SPacket where
  source_port : Nat := 0
  destination_port : Nat := 0
  verification_tag : Nat := 0
  chunks : List SChunk := []
  deriving DecidableEq

/-- Modelled from the spec: an INIT / INIT-ACK chunk parameter; the
embedding keeps the two parameters the handlers inspect. -/
inductive InitParam
  | supportedExtensions (chunk_types : List Nat)
  | stateCookie (cookie : Nat)
  deriving DecidableEq

/-- Modelled from the spec (`chunk_init.rs` is not part of the sources):
the INIT / INIT-ACK chunk fields the handlers read. -/
structure ChunkInit where
  is_ack : Bool := false
  initiate_tag : Nat := 0
  advertised_receiver_window_credit : Nat := 0
  num_outbound_streams : Nat := 0
  num_inbound_streams : Nat := 0
  initial_tsn : Nat := 0
  params : List InitParam := []
  deriving DecidableEq

/-- The `CT_FORWARD_TSN` chunk type tag (192). -/
def CT_FORWARD_TSN : Nat := 192

/-- The `Association` fields touched by the embedded functions.  `Instant`s
are millisecond counts; `rtt_samples` records, in order, the
`(tsn, nsent, rtt)` of every RTT measurement fed to the RTO manager
(the RTO manager itself, `RtoManager`, is not part of the sources and is
modelled from the spec as the receiver of those samples). -/
structure Assoc where
  state : AssociationState := .closed
  my_next_tsn : Nat := 0
  peer_last_tsn : Nat := 0
  min_tsn2measure_rtt : Nat := 0
  cumulative_tsn_ack_point : Nat := 0
  advanced_peer_tsn_ack_point : Nat := 0
  use_forward_tsn : Bool := false
  will_send_forward_tsn : Bool := false
  will_retransmit_fast : Bool := false
  in_fast_recovery : Bool := false
  fast_recover_exit_point : Nat := 0
  cwnd : Nat := 0
  rwnd : Nat := 0
  ssthresh : Nat := 0
  partial_bytes_acked : Nat := 0
  mtu : Nat := 0
  max_receive_buffer_size : Nat := 0
  peer_verification_tag : Nat := 0
  my_verification_tag : Nat := 0
  source_port : Nat := 0
  destination_port : Nat := 0
  my_max_num_inbound_streams : Nat := 0
  my_max_num_outbound_streams : Nat := 0
  my_cookie : Option Nat := none
  my_next_rsn : Nat := 0
  payload_queue : PayloadQueue := {}
  inflight_queue : PayloadQueue := {}
  pending_queue : List ChunkPayloadData := []
  stream_queue : List Nat := []
  streams : List (Nat × StreamState) := []
  reconfigs : List (Nat × OutChunk) := []
  reconfig_requests : List (Nat × ParamOutgoingResetRequest) := []
  events : List Event := []
  error : Option AssociationError := none
  delayed_ack_triggered : Bool := false
  immediate_ack_triggered : Bool := false
  ack_state : AckState := .idle
  ack_mode : AckMode := .normal
  timers : TimerTable := {}
  rtt_samples : List (Nat × Nat × Nat) := []
  num_datas : Nat := 0
  num_t3timeouts : Nat := 0
  deriving DecidableEq

/-- `Association::create_packet`. -/
def create_packet (a : Assoc) (chunks : List OutChunk) : OutPacket :=
  { source_port := a.source_port
    destination_port := a.destination_port
    verification_tag := a.peer_verification_tag
    chunks := chunks }

/-- `Association::get_my_receiver_window_credit`. -/
def get_my_receiver_window_credit (a : Assoc) : Nat :=
  a.max_receive_buffer_size -
    (a.streams.map fun kv => kv.snd.get_num_bytes_in_reassembly_queue).sum

/-- The per-chunk validation loop of `Packet::check_packet`: an INIT
(`is_ack == false`) must be the only chunk and must ride on verification
tag 0. -/
def check_packet_chunks (p : SPacket) : List SChunk → Except Err Unit
  | [] => .ok ()
  | c :: rest =>
    match c with
    | .chInit is_ack =>
      if !is_ack then
        if p.chunks.length != 1 then .error .errInitChunkBundled
        else if p.verification_tag != 0 then .error .errInitChunkVerifyTagNotZero
        else check_packet_chunks p rest
      else check_packet_chunks p rest
    | _ => check_packet_chunks p rest

/-- `Packet::check_packet` from `packet.rs`. -/
def check_packet (p : SPacket) : Except Err Unit :=
  if p.source_port == 0 then .error .errSctpPacketSourcePortZero
  else if p.destination_port == 0 then .error .errSctpPacketDestinationPortZero
  else check_packet_chunks p p.chunks

/-- One TSN of the miss-indicator loop of
`Association::process_fast_retransmission`. -/
def frStep (htna : Nat) (a : Assoc) (tsn : Nat) : Except Err Assoc :=
  match a.inflight_queue.get tsn with
  | none => .error .errTsnRequestNotExist
  | some c =>
    if !c.acked && !c.abandoned && c.miss_indicator < 3 then
      let c2 := { c with miss_indicator := c.miss_indicator + 1 }
      let a2 := { a with inflight_queue := a.inflight_queue.setChunk tsn c2 }
      if c2.miss_indicator == 3 && !a2.in_fast_recovery then
        .ok { a2 with
                in_fast_recovery := true
                fast_recover_exit_point := htna
                ssthresh := max (a2.cwnd / 2) ((4 * a2.mtu) % U32)
                cwnd := max (a2.cwnd / 2) ((4 * a2.mtu) % U32)
                partial_bytes_acked := 0
                will_retransmit_fast := true }
      else .ok a2
    else .ok a

/-- The `while sna32lt(tsn, max_tsn)` loop of
`process_fast_retransmission`; the first argument is the serial distance
from the loop counter to `max_tsn`, which bounds the iteration count. -/
def frLoop (htna max_tsn : Nat) : Nat → Nat → Assoc → Except Err Assoc
  | 0, _, a => .ok a
  | fuel + 1, tsn, a =>
    if sna32lt tsn max_tsn then
      match frStep htna a tsn with
      | .ok a2 => frLoop htna max_tsn fuel ((tsn + 1) % U32) a2
      | .error e => .error e
    else .ok a

/-- The tail of `process_fast_retransmission`: while in fast recovery, an
advancing cumulative ack point also arms `will_retransmit_fast`. -/
def frFinish (cum_tsn_ack_point_advanced : Bool) (r : Except Err Assoc) : Except Err Assoc :=
  match r with
  | .error e => .error e
  | .ok a2 =>
    if a2.in_fast_recovery && cum_tsn_ack_point_advanced then
      .ok { a2 with will_retransmit_fast := true }
    else .ok a2

/-- `Association::process_fast_retransmission`. -/
def process_fast_retransmission (a : Assoc) (cum_tsn_ack_point htna : Nat)
    (cum_tsn_ack_point_advanced : Bool) : Except Err Assoc :=
  frFinish cum_tsn_ack_point_advanced
    (if !a.in_fast_recovery || cum_tsn_ack_point_advanced then
      let max_tsn :=
        if !a.in_fast_recovery then htna
        else (cum_tsn_ack_point + a.inflight_queue.len + 1) % U32
      let start := (cum_tsn_ack_point + 1) % U32
      frLoop htna max_tsn ((max_tsn + U32 - start) % U32) start a
    else .ok a)

/-- The RFC 3758 C2 advancement loop shared by `handle_sack` and
`on_retransmission_timeout`: slide `advanced_peer_tsn_ack_point` past
contiguous abandoned inflight chunks.  The fuel is one more than the number
of stored chunks, which bounds the number of consecutive present TSNs. -/
def advancePeerAckPointLoop (q : PayloadQueue) : Nat → Nat → Nat → Nat
  | 0, adv, _ => adv
  | fuel + 1, adv, i =>
    match q.get i with
    | some c =>
      if !c.abandoned then adv
      else advancePeerAckPointLoop q fuel i ((i + 1) % U32)
    | none => adv

/-- The `Timer::T3RTX` arm of `Association::on_retransmission_timeout`. -/
def on_retransmission_timeout_t3rtx (a : Assoc) : Assoc :=
  let a := { a with num_t3timeouts := a.num_t3timeouts + 1 }
  let a := { a with
              ssthresh := max (a.cwnd / 2) ((4 * a.mtu) % U32)
              cwnd := a.mtu }
  let a :=
    if a.use_forward_tsn then
      let adv := advancePeerAckPointLoop a.inflight_queue
        (a.inflight_queue.len + 1) a.advanced_peer_tsn_ack_point
        ((a.advanced_peer_tsn_ack_point + 1) % U32)
      let a := { a with advanced_peer_tsn_ack_point := adv }
      if sna32gt a.advanced_peer_tsn_ack_point a.cumulative_tsn_ack_point then
        { a with will_send_forward_tsn := true }
      else a
    else a
  { a with inflight_queue := a.inflight_queue.mark_all_to_retrasmit }

/-- The RTT measurement of `process_selective_ack`, shared by its
cumulative-ack and gap-block paths: reset `min_tsn2measure_rtt` to
`my_next_tsn`, then feed `now - since` to the RTO manager (recorded in
`rtt_samples` together with the chunk's TSN and send count). -/
def feedRtt (a : Assoc) (c : ChunkPayloadData) (now : Nat) : Assoc :=
  let a := { a with min_tsn2measure_rtt := a.my_next_tsn }
  match c.since with
  | some since => { a with rtt_samples := a.rtt_samples ++ [(c.tsn, c.nsent, now - since)] }
  | none => a

/-- Accumulate acknowledged bytes for a stream in the
`bytes_acked_per_stream` map. -/
def bapsAdd (m : List (Nat × Nat)) (si n : Nat) : List (Nat × Nat) :=
  match alistGet m si with
  | some amount => alistInsert m si (amount + n)
  | none => alistInsert m si n

/-- The body run by the cumulative-ack loop of `process_selective_ack` on a
chunk `c` freshly popped for TSN `i` (the inflight queue of `a` has already
been updated by the pop). -/
def sackPopBody (a : Assoc) (c : ChunkPayloadData) (i now : Nat)
    (baps : List (Nat × Nat)) : Assoc × List (Nat × Nat) :=
  let st :=
    if !c.acked then
      let a1 :=
        if i == (a.cumulative_tsn_ack_point + 1) % U32 then
          { a with timers := a.timers.stop .t3RTX }
        else a
      let baps1 := bapsAdd baps c.stream_identifier c.user_data.length
      let a2 :=
        if c.nsent == 1 && sna32gte c.tsn a.min_tsn2measure_rtt then feedRtt a1 c now
        else a1
      (a2, baps1)
    else (a, baps)
  let a3 :=
    if a.in_fast_recovery && c.tsn == a.fast_recover_exit_point then
      { st.fst with in_fast_recovery := false }
    else st.fst
  (a3, st.snd)

/-- The `while sna32lte(i, d.cumulative_tsn_ack)` pop loop of
`process_selective_ack`; the fuel is one more than the serial distance from
the loop counter to the cumulative ack. -/
def sackPopLoop (cumAck now : Nat) : Nat → Nat → Assoc → List (Nat × Nat) →
    Except Err (Assoc × List (Nat × Nat))
  | 0, _, a, baps => .ok (a, baps)
  | fuel + 1, i, a, baps =>
    if sna32lte i cumAck then
      match a.inflight_queue.pop i with
      | (some c, q) =>
        let st := sackPopBody { a with inflight_queue := q } c i now baps
        sackPopLoop cumAck now fuel ((i + 1) % U32) st.fst st.snd
      | (none, _) => .error .errInflightQueueTsnPop
    else .ok (a, baps)

/-- One TSN of the gap-ack-block loop of `process_selective_ack`. -/
def sackGapTsn (now : Nat) (st : Assoc × List (Nat × Nat) × Nat) (tsn : Nat) :
    Except Err (Assoc × List (Nat × Nat) × Nat) :=
  let a := st.fst
  let baps := st.snd.fst
  let htna := st.snd.snd
  let pr :=
    match a.inflight_queue.get tsn with
    | some c => (true, c.acked)
    | none => (false, false)
  let is_existed := pr.fst
  let is_acked := pr.snd
  let nq :=
    if is_existed && !is_acked then
      let r := a.inflight_queue.mark_as_acked tsn
      (r.fst, { a with inflight_queue := r.snd })
    else (0, a)
  let n_bytes_acked := nq.fst
  let a := nq.snd
  match a.inflight_queue.get tsn with
  | some c =>
    if !is_acked then
      let baps := bapsAdd baps c.stream_identifier n_bytes_acked
      let a := if c.nsent == 1 then feedRtt a c now else a
      let htna := if sna32lt htna tsn then tsn else htna
      .ok (a, baps, htna)
    else .ok (a, baps, htna)
  | none => .error .errTsnRequestNotExist

/-- Fold a fallible step over a list. -/
def foldExcept {σ α : Type} (f : σ → α → Except Err σ) : σ → List α → Except Err σ
  | s, [] => .ok s
  | s, x :: xs =>
    match f s x with
    | .ok s2 => foldExcept f s2 xs
    | .error e => .error e

/-- The TSNs covered by the gap ack blocks of a SACK, in iteration order:
for each block, offsets `start..=end` added to the cumulative ack (mod 2^32). -/
def gapTsns (d : ChunkSelectiveAck) : List Nat :=
  (d.gap_ack_blocks.map fun g =>
    (List.range' g.start (g.ending + 1 - g.start)).map fun k =>
      (d.cumulative_tsn_ack + k) % U32).flatten

/-- `Association::process_selective_ack`: pop everything up to the
cumulative ack, then mark the gap-reported TSNs as acked; returns the
updated association, the per-stream acknowledged byte counts and the
highest TSN newly acknowledged. -/
def process_selective_ack (a : Assoc) (d : ChunkSelectiveAck) (now : Nat) :
    Except Err (Assoc × List (Nat × Nat) × Nat) :=
  let i0 := (a.cumulative_tsn_ack_point + 1) % U32
  let fuel := (d.cumulative_tsn_ack + U32 - i0) % U32 + 1
  match sackPopLoop d.cumulative_tsn_ack now fuel i0 a [] with
  | .error e => .error e
  | .ok (a2, baps) => foldExcept (sackGapTsn now) (a2, baps, d.cumulative_tsn_ack) (gapTsns d)

/-- Modelled from the spec (`queue/pending_queue.rs` is not part of the
sources): the pending queue is a FIFO of user-submitted chunks; `peek`
returns exactly the chunk the next `pop` removes (the source guarantees
this through its head-of-fragment selection state, whose two flag
arguments the FIFO model therefore ignores). -/
def pendingPeek (l : List ChunkPayloadData) : Option ChunkPayloadData :=
  l.head?

/-- Modelled from the spec: `PendingQueue::pop`. -/
def pendingPop (l : List ChunkPayloadData) (_beginning_fragment _unordered : Bool) :
    Option (ChunkPayloadData × List ChunkPayloadData) :=
  match l with
  | [] => none
  | c :: rest => some (c, rest)

/-- `Association::check_partial_reliability_status`: abandon a chunk whose
stream's PR-SCTP policy says so (never for DCEP chunks). -/
def check_partial_reliability_status (c : ChunkPayloadData) (now : Nat)
    (use_forward_tsn : Bool) (streams : List (Nat × StreamState)) : ChunkPayloadData :=
  if !use_forward_tsn then c
  else if c.payload_type == .dcep then c
  else
    match alistGet streams c.stream_identifier with
    | some s =>
      if s.reliability_type == .rexmit then
        if c.nsent ≥ s.reliability_value then c.set_abandoned true else c
      else if s.reliability_type == .timed then
        match c.since with
        | some since =>
          if now - since ≥ s.reliability_value then c.set_abandoned true else c
        | none => c
      else c
    | none => c

/-- `Association::move_pending_data_chunk_to_inflight_queue`. -/
def move_pending_data_chunk_to_inflight_queue (a : Assoc)
    (beginning_fragment unordered : Bool) (now : Nat) :
    Option (Assoc × ChunkPayloadData) :=
  match pendingPop a.pending_queue beginning_fragment unordered with
  | none => none
  | some (c, rest) =>
    let c := if c.ending_fragment then c.set_all_inflight else c
    let tsn := a.my_next_tsn
    let a := { a with pending_queue := rest, my_next_tsn := (a.my_next_tsn + 1) % U32 }
    let c := { c with tsn := tsn, since := some now, nsent := 1 }
    let c := check_partial_reliability_status c now a.use_forward_tsn a.streams
    some ({ a with inflight_queue := a.inflight_queue.push_no_check c }, c)

/-- Result of one iteration of the drawing loop of
`pop_pending_data_chunks_to_send`. -/
inductive PopStepRes
  | exitLoop
  | skipped (a : Assoc) (sid : Nat)
  | moved (a : Assoc) (c : ChunkPayloadData)

/-- One iteration of the `while let Some(c) = self.pending_queue.peek()`
loop of `pop_pending_data_chunks_to_send`: an end-of-stream marker is
removed and its stream id collected; otherwise the chunk moves to the
inflight queue only when it passes both the cwnd and the rwnd gate, which
also debits rwnd. -/
def popStep (a : Assoc) (now : Nat) : PopStepRes :=
  match pendingPeek a.pending_queue with
  | none => .exitLoop
  | some c =>
    if c.user_data.length == 0 then
      match pendingPop a.pending_queue c.beginning_fragment c.unordered with
      | some (_, rest) => .skipped { a with pending_queue := rest } c.stream_identifier
      | none => .skipped a c.stream_identifier
    else if a.inflight_queue.get_num_bytes + c.user_data.length > a.cwnd then .exitLoop
    else if c.user_data.length > a.rwnd then .exitLoop
    else
      let a := { a with rwnd := a.rwnd - c.user_data.length }
      match move_pending_data_chunk_to_inflight_queue a c.beginning_fragment c.unordered now with
      | some (a2, c2) => .moved a2 c2
      | none => .exitLoop

/-- The drawing loop of `pop_pending_data_chunks_to_send`; every productive
iteration removes one pending chunk, so the pending-queue length bounds the
iteration count. -/
def popLoop (now : Nat) : Nat → Assoc → Assoc × List ChunkPayloadData × List Nat
  | 0, a => (a, [], [])
  | fuel + 1, a =>
    match popStep a now with
    | .exitLoop => (a, [], [])
    | .skipped a2 sid =>
      let r := popLoop now fuel a2
      (r.fst, r.snd.fst, sid :: r.snd.snd)
    | .moved a2 c =>
      let r := popLoop now fuel a2
      (r.fst, c :: r.snd.fst, r.snd.snd)

/-- `Association::pop_pending_data_chunks_to_send`: returns the association,
the chunks drawn for sending and the stream ids collected for reset. -/
def pop_pending_data_chunks_to_send (a : Assoc) (now : Nat) :
    Assoc × List ChunkPayloadData × List Nat :=
  if !a.pending_queue.isEmpty then
    let r := popLoop now a.pending_queue.length a
    let a1 := r.fst
    let chunks := r.snd.fst
    let sis_to_reset := r.snd.snd
    if chunks.isEmpty && a1.inflight_queue.is_empty then
      match pendingPeek a1.pending_queue with
      | some c =>
        match move_pending_data_chunk_to_inflight_queue a1 c.beginning_fragment c.unordered now with
        | some (a2, ck) => (a2, [ck], sis_to_reset)
        | none => (a1, [], sis_to_reset)
      | none => (a1, [], sis_to_reset)
    else (a1, chunks, sis_to_reset)
  else (a, [], [])

/-- `Association::unregister_stream`. -/
def unregister_stream (a : Assoc) (stream_identifier : Nat) : Assoc :=
  { a with streams := alistRemove a.streams stream_identifier }

/-- `Association::reset_streams_if_any`: apply or defer an inbound outgoing
reset request, answering with the mirrored request (when streams were
closed and a response was asked for) and a RECONFIG response. -/
def reset_streams_if_any (a : Assoc) (p : ParamOutgoingResetRequest) (respond : Bool)
    (reply : List OutPacket) : Assoc × List OutPacket :=
  let st :=
    if sna32lte p.sender_last_tsn a.peer_last_tsn then
      let ar := p.stream_identifiers.foldl
        (fun (acc : Assoc × List Nat) id =>
          if alistContains acc.fst.streams id then
            (unregister_stream acc.fst id, if respond then acc.snd ++ [id] else acc.snd)
          else acc)
        (a, [])
      let a := ar.fst
      let a := { a with
        reconfig_requests := alistRemove a.reconfig_requests p.reconfig_request_sequence_number }
      (a, ar.snd, ReconfigResult.successPerformed)
    else (a, [], ReconfigResult.inProgress)
  let a := st.fst
  let sis_to_reset := st.snd.fst
  let result := st.snd.snd
  let ar :=
    if !sis_to_reset.isEmpty then
      let rsn := a.my_next_rsn
      let a := { a with my_next_rsn := (a.my_next_rsn + 1) % U32 }
      let tsn := (a.my_next_tsn + U32 - 1) % U32
      let ch := OutChunk.reconfigResetRequest rsn p.reconfig_request_sequence_number tsn
        sis_to_reset
      let a := { a with reconfigs := alistInsert a.reconfigs rsn ch }
      (a, reply ++ [create_packet a [ch]])
    else (a, reply)
  let a := ar.fst
  let reply := ar.snd
  (a, reply ++
    [create_packet a
      [OutChunk.reconfigResponse p.reconfig_request_sequence_number result]])

/-- The `while self.payload_queue.pop(self.peer_last_tsn + 1)` advancement
loop of `Association::handle_peer_last_tsn_and_acknowledgement`; every
iteration pops one chunk, so the sorted-key count bounds the iterations. -/
def hpltLoop : Nat → Assoc → List OutPacket → Assoc × List OutPacket
  | 0, a, reply => (a, reply)
  | fuel + 1, a, reply =>
    match a.payload_queue.pop ((a.peer_last_tsn + 1) % U32) with
    | (some _, q) =>
      let a := { a with payload_queue := q, peer_last_tsn := (a.peer_last_tsn + 1) % U32 }
      let ar := a.reconfig_requests.foldl
        (fun (acc : Assoc × List OutPacket) kv =>
          reset_streams_if_any acc.fst kv.snd false acc.snd)
        (a, reply)
      hpltLoop fuel ar.fst ar.snd
    | (none, _) => (a, reply)

/-- `Association::handle_peer_last_tsn_and_acknowledgement`. -/
def handle_peer_last_tsn_and_acknowledgement (a : Assoc) (sack_immediately : Bool) :
    Assoc × List OutPacket :=
  let ar := hpltLoop a.payload_queue.sorted.length a []
  let a := ar.fst
  let reply := ar.snd
  let has_packet_loss := !a.payload_queue.is_empty
  let a :=
    if (!(a.ack_state == .immediate) && !sack_immediately && !has_packet_loss &&
          a.ack_mode == .normal) ||
        a.ack_mode == .alwaysDelay then
      if a.ack_state == .idle then { a with delayed_ack_triggered := true }
      else { a with immediate_ack_triggered := true }
    else { a with immediate_ack_triggered := true }
  (a, reply)

/-- `Association::get_or_create_stream` (with `accept = true`, as called
from `handle_data`); stream creation always succeeds in the source, so the
returned flag is always `true`. -/
def get_or_create_stream (a : Assoc) (stream_identifier : Nat) : Assoc × Bool :=
  if alistContains a.streams stream_identifier then (a, true)
  else
    let s : StreamState := {}
    ({ a with
        stream_queue := a.stream_queue ++ [stream_identifier]
        events := a.events ++ [Event.stream .opened]
        streams := alistInsert a.streams stream_identifier s }, true)

/-- `Association::handle_data`. -/
def handle_data (a : Assoc) (d : ChunkPayloadData) : Assoc × List OutPacket :=
  let a := { a with num_datas := a.num_datas + 1 }
  let can_push := a.payload_queue.can_push d a.peer_last_tsn
  let st :=
    if can_push then
      let ar := get_or_create_stream a d.stream_identifier
      let a := ar.fst
      if ar.snd then
        if get_my_receiver_window_credit a > 0 then
          ({ a with payload_queue := (a.payload_queue.push d a.peer_last_tsn).fst },
           true, false)
        else
          match a.payload_queue.get_last_tsn_received with
          | some last_tsn =>
            if sna32lt d.tsn last_tsn then
              ({ a with payload_queue := (a.payload_queue.push d a.peer_last_tsn).fst },
               true, false)
            else (a, false, false)
          | none => (a, false, false)
      else (a, false, true)
    else (a, false, false)
  let a := st.fst
  let stream_handle_data := st.snd.fst
  let discarded := st.snd.snd
  if discarded then (a, [])
  else
    let immediate_sack := d.immediate_sack
    let a :=
      if stream_handle_data then
        match alistGet a.streams d.stream_identifier with
        | some s =>
          let a := { a with events := a.events ++ [Event.datagramReceived] }
          let s := s.handle_data d
          let a := { a with streams := alistInsert a.streams d.stream_identifier s }
          if s.is_readable then
            { a with events := a.events ++ [Event.stream (.readable d.stream_identifier)] }
          else a
        | none => a
      else a
    handle_peer_last_tsn_and_acknowledgement a immediate_sack

/-- `Association::create_selective_ack_chunk` (it drains the duplicate-TSN
log, so it also returns the updated association). -/
def create_selective_ack_chunk (a : Assoc) : Assoc × ChunkSelectiveAck :=
  let dq := a.payload_queue.pop_duplicates
  ({ a with payload_queue := dq.snd },
   { cumulative_tsn_ack := a.peer_last_tsn
     advertised_receiver_window_credit := get_my_receiver_window_credit a
     gap_ack_blocks := a.payload_queue.get_gap_ack_blocks a.peer_last_tsn
     duplicate_tsn := dq.fst })

/-- `Association::handle_init`.  The random server cookie of
`ParamStateCookie::new()` is modelled as the fixed value 0 (its value
never matters to the embedded control flow). -/
def handle_init (a : Assoc) (p : SPacket) (i : ChunkInit) : Except Err (Assoc × List OutPacket) :=
  let state := a.state
  if state != AssociationState.closed && state != AssociationState.cookieWait &&
      state != AssociationState.cookieEchoed then
    .error .errHandleInitState
  else
    let a := { a with
      my_max_num_inbound_streams := min i.num_inbound_streams a.my_max_num_inbound_streams
      my_max_num_outbound_streams := min i.num_outbound_streams a.my_max_num_outbound_streams
      peer_verification_tag := i.initiate_tag
      source_port := p.destination_port
      destination_port := p.source_port }
    let a := { a with
      peer_last_tsn := if i.initial_tsn == 0 then U32 - 1 else i.initial_tsn - 1 }
    let a := i.params.foldl
      (fun (acc : Assoc) param =>
        match param with
        | .supportedExtensions chunk_types =>
          if chunk_types.contains CT_FORWARD_TSN then { acc with use_forward_tsn := true }
          else acc
        | _ => acc)
      a
    let a := if a.my_cookie.isNone then { a with my_cookie := some 0 } else a
    let cookie := a.my_cookie.getD 0
    let init_ack := OutChunk.initAck a.my_next_tsn a.my_verification_tag
      a.max_receive_buffer_size a.my_max_num_outbound_streams a.my_max_num_inbound_streams
      cookie
    let outbound : OutPacket :=
      { verification_tag := a.peer_verification_tag
        source_port := a.source_port
        destination_port := a.destination_port
        chunks := [init_ack] }
    .ok (a, [outbound])

/-- `Association::close_all_timers`. -/
def close_all_timers (a : Assoc) : Assoc :=
  { a with
    timers := ((((((a.timers.stop .t1Init).stop .t1Cookie).stop .t2Shutdown).stop
      .t3RTX).stop .ack).stop .reconfig) }

/-- `Association::close`: transition to `Closed`, stop all timers and
unregister every stream; a no-op when already closed.  The source's
`Result<()>` is always `Ok`, so the embedding returns the association. -/
def close (a : Assoc) : Assoc :=
  if a.state != AssociationState.closed then
    let a := { a with state := AssociationState.closed }
    let a := close_all_timers a
    a.streams.foldl (fun acc kv => unregister_stream acc kv.fst) a
  else a

/-- `Association::poll`: pop the front application event, else surface (and
clear) the stored error as `AssociationLost`. -/
def poll (a : Assoc) : Assoc × Option Event :=
  match a.events with
  | e :: rest => ({ a with events := rest }, some e)
  | [] =>
    match a.error with
    | some err => ({ a with error := none }, some (Event.associationLost err))
    | none => (a, none)

/-- Repeatedly `poll` until it yields nothing, collecting the events. -/
def pollAll : Nat → Assoc → List Event
  | 0, _ => []
  | fuel + 1, a =>
    match poll a with
    | (a2, some e) => e :: pollAll fuel a2
    | (_, none) => []

/-- Whether an event is `AssociationLost`. -/
def isLostEvent : Event → Bool
  | .associationLost _ => true
  | _ => false

/-- `Association::handle_chunk_start`: clear both per-packet ack flags
before iterating a packet's chunks. -/
def handle_chunk_start (a : Assoc) : Assoc :=
  { a with delayed_ack_triggered := false, immediate_ack_triggered := false }

/-- `Association::handle_chunk_end`: after iterating a packet's chunks,
promote the flags into the ack state and the Ack timer. -/
def handle_chunk_end (a : Assoc) (now : Nat) : Assoc :=
  if a.immediate_ack_triggered then
    { a with ack_state := .immediate, timers := a.timers.stop .ack }
  else if a.delayed_ack_triggered then
    { a with ack_state := .delay, timers := a.timers.start .ack now ACK_INTERVAL }
  else a

/-- `Association::gather_outbound_sack_packets`: emit one SACK packet iff
the ack state is `Immediate`, resetting it to `Idle`. -/
def gather_outbound_sack_packets (a : Assoc) (raw_packets : List OutPacket) :
    Assoc × List OutPacket :=
  if a.ack_state == AckState.immediate then
    let a := { a with ack_state := AckState.idle }
    let ar := create_selective_ack_chunk a
    (ar.fst, raw_packets ++ [create_packet ar.fst [OutChunk.sack ar.snd]])
  else (a, raw_packets)

/-- Count the SACK chunks across a list of gathered packets. -/
def countSacks (l : List OutPacket) : Nat :=
  (l.map fun p => (p.chunks.filter fun c =>
    match c with
    | OutChunk.sack _ => true
    | _ => false).length).sum

/-- The byte count a payload queue is supposed to track: the sum of the
stored chunks' user-data lengths. -/
def pqStoredBytes (q : PayloadQueue) : Nat :=
  (q.chunk_map.map fun kv => kv.snd.user_data.length).sum

/-- The consistency property claimed for `PayloadQueue`:
`get_num_bytes` equals the stored bytes, and the sorted TSN list holds
exactly the keys of the chunk map. -/
def pqInvariant (q : PayloadQueue) : Prop :=
  q.get_num_bytes = pqStoredBytes q ∧
    (q.sorted : Multiset Nat) = ((q.chunk_map.map Prod.fst : List Nat) : Multiset Nat)

/-- Payload queues reachable from the empty queue by any sequence of
`push`, `push_no_check`, `pop` and `mark_as_acked` (the quantification of
the claim, taken literally). -/
inductive ReachablePQ : PayloadQueue → Prop
  | empty : ReachablePQ {}
  | push (q : PayloadQueue) (p : ChunkPayloadData) (ct : Nat) (h : ReachablePQ q) :
      ReachablePQ (q.push p ct).fst
  | pushNoCheck (q : PayloadQueue) (p : ChunkPayloadData) (h : ReachablePQ q) :
      ReachablePQ (q.push_no_check p)
  | pop (q : PayloadQueue) (tsn : Nat) (h : ReachablePQ q) :
      ReachablePQ (q.pop tsn).snd
  | mark (q : PayloadQueue) (tsn : Nat) (h : ReachablePQ q) :
      ReachablePQ (q.mark_as_acked tsn).snd

/-- Payload queues reachable when `push_no_check` is only ever handed a TSN
that is not yet stored — which is how the association calls it, with TSNs
freshly drawn from `generate_next_tsn`. -/
inductive ReachablePQFresh : PayloadQueue → Prop
  | empty : ReachablePQFresh {}
  | push (q : PayloadQueue) (p : ChunkPayloadData) (ct : Nat) (h : ReachablePQFresh q) :
      ReachablePQFresh (q.push p ct).fst
  | pushNoCheck (q : PayloadQueue) (p : ChunkPayloadData)
      (hf : alistContains q.chunk_map p.tsn = false) (h : ReachablePQFresh q) :
      ReachablePQFresh (q.push_no_check p)
  | pop (q : PayloadQueue) (tsn : Nat) (h : ReachablePQFresh q) :
      ReachablePQFresh (q.pop tsn).snd
  | mark (q : PayloadQueue) (tsn : Nat) (h : ReachablePQFresh q) :
      ReachablePQFresh (q.mark_as_acked tsn).snd

/-- The sample-evolution relation between two association states used to
state the RTT-measurement property: the RTO manager only ever receives new
samples with `nsent = 1`, appended to the old ones, and
`min_tsn2measure_rtt` ends at `my_next_tsn` exactly when a measurement ran. -/
def sampleEvolution (a b : Assoc) : Prop :=
  ∃ l, b.rtt_samples = a.rtt_samples ++ l ∧
    (∀ x ∈ l, x.snd.fst = 1) ∧
    (l ≠ [] → b.min_tsn2measure_rtt = a.my_next_tsn) ∧
    (l = [] → b.min_tsn2measure_rtt = a.min_tsn2measure_rtt ∨
      b.min_tsn2measure_rtt = a.my_next_tsn) ∧
    b.my_next_tsn = a.my_next_tsn

/-- The new RTT samples produced for an acknowledged chunk: one sample,
provided `since` is set. -/
def rttSampleOf (c : ChunkPayloadData) (now : Nat) : List (Nat × Nat × Nat) :=
  match c.since with
  | some s => [(c.tsn, c.nsent, now - s)]
  | none => []

/-- Fast-recovery entry settings relative to the pre-SACK state `a0`:
what claim C2 says holds after the association enters fast recovery. -/
def frSettled (a0 : Assoc) (htna : Nat) (a : Assoc) : Prop :=
  a.in_fast_recovery = true ∧ a.fast_recover_exit_point = htna ∧
    a.ssthresh = max (a0.cwnd / 2) ((4 * a0.mtu) % U32) ∧
    a.cwnd = a.ssthresh ∧ a.partial_bytes_acked = 0 ∧ a.will_retransmit_fast = true

/-- Before fast-recovery entry: not in fast recovery, with the congestion
fields still those of the pre-SACK state. -/
def frPre (a0 : Assoc) (a : Assoc) : Prop :=
  a.in_fast_recovery = false ∧ a.cwnd = a0.cwnd ∧ a.mtu = a0.mtu

/-- A payload queue together with the key-uniqueness its map operations
maintain; the strengthened induction invariant behind claim C10. -/
def pqWF (q : PayloadQueue) : Prop :=
  (q.chunk_map.map Prod.fst).Nodup ∧ pqInvariant q

/-- The outbound batch carries consecutive wrapping TSNs starting at `t`, and
each drawn chunk is fresh (nsent 1, stamped `now`) with a real payload. -/
def consecutiveFrom (now t : Nat) : List ChunkPayloadData → Prop
  | [] => True
  | c :: l => c.tsn = t ∧ c.nsent = 1 ∧ c.since = some now ∧
      c.user_data.length ≠ 0 ∧ consecutiveFrom now ((t + 1) % U32) l

/-- Whether an outbound chunk is an INIT-ACK. -/
def isInitAck : OutChunk → Bool
  | .initAck _ _ _ _ _ _ => true
  | _ => false

/-- Fixture (C1): an inflight chunk sent once, awaiting its first ack. -/
def c1Chunk : ChunkPayloadData :=
  { tsn := 11, stream_identifier := 0, user_data := [7], nsent := 1, since := some 0 }

/-- Fixture (C1): association with cumulative ack point 10, chunk 11 in
flight, and `min_tsn2measure_rtt = 100`, i.e. serially above TSN 11. -/
def c1Assoc : Assoc :=
  { cumulative_tsn_ack_point := 10, my_next_tsn := 12, min_tsn2measure_rtt := 100
    inflight_queue := { chunk_map := [(11, c1Chunk)], sorted := [11], n_bytes := 1 } }

/-- Fixture (C1): a SACK acknowledging TSN 11 through a gap block only. -/
def c1Sack : ChunkSelectiveAck :=
  { cumulative_tsn_ack := 10, gap_ack_blocks := [{ start := 1, ending := 1 }] }

/-- Fixture (C1): the result of processing `c1Sack` (total, since the run
succeeds). -/
def c1Res : Assoc × List (Nat × Nat) × Nat :=
  match process_selective_ack c1Assoc c1Sack 5 with
  | .ok r => r
  | .error _ => ({}, [], 0)

/-- Fixture (C1): the association after processing `c1Sack`. -/
def c1Out : Assoc := c1Res.fst

/-- Fixture (C2): an inflight chunk two miss reports away from nothing,
i.e. with `miss_indicator = 2`. -/
def c2Chunk : ChunkPayloadData :=
  { tsn := 11, user_data := [7], nsent := 1, miss_indicator := 2 }

/-- Fixture (C2): association not in fast recovery, cwnd 4000, mtu 800. -/
def c2Assoc : Assoc :=
  { cwnd := 4000, mtu := 800
    inflight_queue := { chunk_map := [(11, c2Chunk)], sorted := [11], n_bytes := 1 } }

/-- Fixture (C2): fast-retransmission processing of a SACK with cumulative
ack 10 and HTNA 12 (total, since the run succeeds). -/
def c2Res : Assoc :=
  match process_fast_retransmission c2Assoc 10 12 false with
  | .ok a2 => a2
  | .error _ => {}

/-- Fixture (C3): an inflight chunk that is abandoned but not acked. -/
def c3Chunk : ChunkPayloadData :=
  { tsn := 5, user_data := [1], nsent := 1, abandoned_flag := true, all_inflight := true }

/-- Fixture (C3): an ordinary unacked, non-abandoned inflight chunk. -/
def c3Norm : ChunkPayloadData := { tsn := 6, user_data := [2], nsent := 1 }

/-- Fixture (C3): association holding the abandoned chunk 5 and the
ordinary chunk 6 in flight. -/
def c3Assoc : Assoc :=
  { cwnd := 4000, mtu := 800
    inflight_queue :=
      { chunk_map := [(5, c3Chunk), (6, c3Norm)], sorted := [5, 6], n_bytes := 2 } }

/-- Fixture (C4): a zero-length end-of-stream marker for stream 9. -/
def c4Zero : ChunkPayloadData := { stream_identifier := 9, user_data := [] }

/-- Fixture (C4): a three-byte data chunk. -/
def c4Data : ChunkPayloadData := { stream_identifier := 2, user_data := [1, 2, 3] }

/-- Fixture (C4): association with the marker and the data chunk pending. -/
def c4Assoc : Assoc :=
  { cwnd := 100, rwnd := 100, my_next_tsn := 42, pending_queue := [c4Zero, c4Data] }

/-- Fixture (C4): `c4Assoc` after the marker has been skipped. -/
def c4A1 : Assoc := { c4Assoc with pending_queue := [c4Data] }

/-- Fixture (C4): the moved-chunk outcome of the drawing step on `c4A1`
(total, since the step moves the chunk). -/
def c4Moved : Assoc × ChunkPayloadData :=
  match popStep c4A1 6 with
  | .moved a2 c => (a2, c)
  | _ => ({}, {})

/-- Fixture (C5): an out-of-order chunk already held by the payload queue. -/
def c5Gap : ChunkPayloadData := { tsn := 7, stream_identifier := 0, user_data := [3] }

/-- Fixture (C5): established association with `peer_last_tsn = 5` and TSN 7
queued (so TSNs at most 5 are duplicates and 6 is missing). -/
def c5Assoc : Assoc :=
  { state := .established, peer_last_tsn := 5, max_receive_buffer_size := 1024
    payload_queue := { chunk_map := [(7, c5Gap)], sorted := [7], n_bytes := 1 }
    streams := [(0, {})] }

/-- Fixture (C5): a duplicate DATA chunk (its TSN 3 is at most the
cumulative ack 5). -/
def c5Dup : ChunkPayloadData := { tsn := 3, stream_identifier := 0, user_data := [9] }

/-- Fixture (C5): the association after handling the duplicate. -/
def c5Out : Assoc := (handle_data c5Assoc c5Dup).fst

/-- Fixture (C6): association in `ShutdownAckSent`. -/
def c6Assoc : Assoc :=
  { state := .shutdownAckSent, my_verification_tag := 9, my_next_tsn := 100
    max_receive_buffer_size := 1024 }

/-- Fixture (C6): an inbound packet carrying a lone INIT on tag 0. -/
def c6Pkt : SPacket :=
  { source_port := 5000, destination_port := 5000, verification_tag := 0
    chunks := [.chInit false] }

/-- Fixture (C6): the inbound INIT chunk. -/
def c6Init : ChunkInit :=
  { initiate_tag := 77, initial_tsn := 200, num_outbound_streams := 10
    num_inbound_streams := 10 }

/-- Fixture (C7): an established association with a stream, a running T3
timer, no queued events and no stored error. -/
def c7Assoc : Assoc :=
  { state := .established, streams := [(1, {})], timers := { t3RTX := some 100 } }

/-- Fixture (C8): state after a packet whose chunks requested an immediate
ack, with the Ack timer running and a gap in the payload queue. -/
def c8Assoc : Assoc :=
  { immediate_ack_triggered := true, ack_state := .idle
    timers := { ack := some 50 }
    peer_last_tsn := 5
    payload_queue := { chunk_map := [(7, c5Gap)], sorted := [7], n_bytes := 1 } }

/-- Fixture (C9): an INIT-ACK bundled with a SACK on a non-zero tag. -/
def c9Pkt : SPacket :=
  { source_port := 5000, destination_port := 5000, verification_tag := 7
    chunks := [.chInit true, .chSack] }

/-- Fixture (C9): a well-formed lone-INIT packet. -/
def c9GoodPkt : SPacket :=
  { source_port := 5000, destination_port := 5000, verification_tag := 0
    chunks := [.chInit false] }

/-- Fixture (C10): a one-byte chunk with TSN 1. -/
def c10Chunk : ChunkPayloadData := { tsn := 1, user_data := [5] }

/-- Fixture (C10): the queue obtained by `push_no_check`-ing the same TSN
twice from the empty queue. -/
def c10Bad : PayloadQueue :=
  (({} : PayloadQueue).push_no_check c10Chunk).push_no_check c10Chunk

/-- Fixture (C10): a two-byte chunk with TSN 10. -/
def c10WChunk : ChunkPayloadData := { tsn := 10, user_data := [1, 2] }

/-- Fixture (C10): the queue holding `c10WChunk`, reached by a checked push. -/
def c10WQueue : PayloadQueue := (({} : PayloadQueue).push c10WChunk 0).fst

/-- Decidable equality for `Except`, so concrete runs of the fallible
embedded functions can be checked by `decide`. -/
instance {e a : Type} [DecidableEq e] [DecidableEq a] : DecidableEq (Except e a) := fun x y =>
  match x, y with
  | .ok v, .ok w =>
    if h : v = w then isTrue (by rw [h]) else isFalse (fun hc => h (Except.ok.inj hc))
  | .error v, .error w =>
    if h : v = w then isTrue (by rw [h]) else isFalse (fun hc => h (Except.error.inj hc))
  | .ok _, .error _ => isFalse (fun hc => Except.noConfusion hc)
  | .error _, .ok _ => isFalse (fun hc => Except.noConfusion hc)

theorem alistGet_map_snd {β γ : Type} (g : β → γ) (m : List (Nat × β)) (k : Nat) :
    alistGet (m.map fun kv => (kv.fst, g kv.snd)) k = (alistGet m k).map g := by
  induction m with
  | nil => simp [alistGet]
  | cons kv rest ih =>
    cases h : kv.fst == k with
    | false => simpa [alistGet, List.find?, h] using ih
    | true => simp [alistGet, List.find?, h]

theorem mark_all_get (q : PayloadQueue) (tsn : Nat) :
    (q.mark_all_to_retrasmit).get tsn =
      (q.get tsn).map fun c0 =>
        if c0.acked || c0.abandoned then c0 else { c0 with retransmit := true } := by
  unfold PayloadQueue.mark_all_to_retrasmit PayloadQueue.get
  have hfun : (fun kv : Nat × ChunkPayloadData =>
        if kv.snd.acked || kv.snd.abandoned then kv
        else (kv.fst, { kv.snd with retransmit := true })) =
      fun kv => (kv.fst,
        if kv.snd.acked || kv.snd.abandoned then kv.snd
        else { kv.snd with retransmit := true }) := by
    funext kv
    by_cases h : kv.snd.acked || kv.snd.abandoned <;> simp [h]
  simp only [hfun]
  exact alistGet_map_snd
    (fun c0 => if c0.acked || c0.abandoned then c0 else { c0 with retransmit := true })
    q.chunk_map tsn

theorem check_packet_chunks_ok_iff (p : SPacket) (l : List SChunk) :
    check_packet_chunks p l = .ok () ↔
      ∀ c ∈ l, c = SChunk.chInit false →
        p.chunks.length = 1 ∧ p.verification_tag = 0 := by
  induction l with
  | nil => simp [check_packet_chunks]
  | cons c rest ih =>
    cases c with
    | chInit is_ack =>
      cases is_ack with
      | false =>
        by_cases h1 : p.chunks.length = 1
        · by_cases h2 : p.verification_tag = 0
          · simp [check_packet_chunks, h1, h2, ih]
          · simp [check_packet_chunks, h1, h2]
        · simp [check_packet_chunks, h1]
      | true => simp [check_packet_chunks, ih]
    | chSack => simp [check_packet_chunks, ih]
    | chData => simp [check_packet_chunks, ih]
    | chCookieEcho => simp [check_packet_chunks, ih]
    | chCookieAck => simp [check_packet_chunks, ih]
    | chHeartbeat => simp [check_packet_chunks, ih]
    | chAbort => simp [check_packet_chunks, ih]
    | chShutdown => simp [check_packet_chunks, ih]
    | chShutdownAck => simp [check_packet_chunks, ih]
    | chShutdownComplete => simp [check_packet_chunks, ih]
    | chError => simp [check_packet_chunks, ih]
    | chReconfig => simp [check_packet_chunks, ih]
    | chForwardTsn => simp [check_packet_chunks, ih]

/-- C9 (amended): `check_packet` accepts a packet exactly when both ports
are non-zero and every INIT chunk (`is_ack = false`) is unbundled and rides
on verification tag 0.  In particular port-zero packets and malformed INIT
packets are rejected — but a bundled INIT-ACK passes validation, the
bundling rule being enforced for INIT only. -/
theorem c9_check_packet_characterization (p : SPacket) :
    check_packet p = .ok () ↔
      (p.source_port ≠ 0 ∧ p.destination_port ≠ 0 ∧
        ∀ c ∈ p.chunks, c = SChunk.chInit false →
          p.chunks.length = 1 ∧ p.verification_tag = 0) := by
  unfold check_packet
  by_cases h1 : p.source_port = 0
  · simp [h1]
  · by_cases h2 : p.destination_port = 0
    · simp [h1, h2]
    · simp [h1, h2, check_packet_chunks_ok_iff]

/-- C9 (counterexample): an INIT-ACK bundled with a SACK (on a non-zero
verification tag) passes `check_packet`, although the claim says any packet
bundling an INIT-ACK with another chunk is an error. -/
theorem c9_counterexample :
    check_packet c9Pkt = .ok () ∧
      c9Pkt.chunks = [SChunk.chInit true, SChunk.chSack] ∧
      c9Pkt.chunks.length ≠ 1 ∧
      check_packet { c9Pkt with chunks := [SChunk.chInit false, SChunk.chSack] } =
        .error .errInitChunkBundled := by
  decide

/-- C9 (witness): the characterization applied to a concrete lone-INIT
packet. -/
theorem c9_witness : check_packet c9GoodPkt = .ok () :=
  (c9_check_packet_characterization c9GoodPkt).mpr (by decide)

/-- C3 (amended): on a T3-RTX expiry `ssthresh` becomes
`max(cwnd/2, 4*mtu)` and `cwnd` becomes `mtu`; every inflight chunk that is
neither acked nor abandoned is marked for retransmission (abandoned chunks
are skipped, which is what the counterexample exhibits); consequently
`cwnd ≥ mtu`, and `ssthresh ≥ 4*mtu` whenever `4*mtu` fits in 32 bits. -/
theorem c3_t3rtx_amended (a : Assoc) :
    (on_retransmission_timeout_t3rtx a).ssthresh = max (a.cwnd / 2) ((4 * a.mtu) % U32) ∧
    (on_retransmission_timeout_t3rtx a).cwnd = a.mtu ∧
    (∀ tsn c, (on_retransmission_timeout_t3rtx a).inflight_queue.get tsn = some c →
        c.acked = false → c.abandoned = false → c.retransmit = true) ∧
    a.mtu ≤ (on_retransmission_timeout_t3rtx a).cwnd ∧
    (4 * a.mtu < U32 → 4 * a.mtu ≤ (on_retransmission_timeout_t3rtx a).ssthresh) := by
  have hmain : (on_retransmission_timeout_t3rtx a).ssthresh =
        max (a.cwnd / 2) ((4 * a.mtu) % U32) ∧
      (on_retransmission_timeout_t3rtx a).cwnd = a.mtu ∧
      (on_retransmission_timeout_t3rtx a).inflight_queue =
        PayloadQueue.mark_all_to_retrasmit a.inflight_queue := by
    simp only [on_retransmission_timeout_t3rtx]
    split
    · split <;> exact ⟨rfl, rfl, rfl⟩
    · exact ⟨rfl, rfl, rfl⟩
  refine ⟨hmain.1, hmain.2.1, ?_, ?_, ?_⟩
  · intro tsn c hget hacked hab
    rw [hmain.2.2, mark_all_get] at hget
    cases hq : PayloadQueue.get a.inflight_queue tsn with
    | none => rw [hq] at hget; simp at hget
    | some c0 =>
      rw [hq] at hget
      have hc : (if c0.acked || c0.abandoned then c0
          else { c0 with retransmit := true }) = c := Option.some.inj hget
      by_cases h0 : c0.acked || c0.abandoned
      · rw [if_pos h0] at hc
        subst hc
        rcases Bool.or_eq_true_iff.mp h0 with h | h
        · rw [hacked] at h; cases h
        · rw [hab] at h; cases h
      · rw [if_neg h0] at hc
        subst hc
        rfl
  · rw [hmain.2.1]
  · intro hfit
    rw [hmain.1]
    have : (4 * a.mtu) % U32 = 4 * a.mtu := Nat.mod_eq_of_lt hfit
    rw [this]
    exact le_max_right _ _

/-- C3 (counterexample): after a T3-RTX expiry the abandoned-but-unacked
inflight chunk 5 of `c3Assoc` is still not marked for retransmission,
contradicting the claim that every unacked inflight chunk is marked. -/
theorem c3_counterexample :
    ((on_retransmission_timeout_t3rtx c3Assoc).inflight_queue.get 5).map
        (fun c => (c.acked, c.retransmit)) = some (false, false) ∧
      (c3Assoc.inflight_queue.get 5).map (fun c => c.acked) = some false := by
  decide

/-- C3 (witness): the amended theorem applied to `c3Assoc`: the ordinary
chunk 6 is marked for retransmission and `ssthresh` lands on `4*mtu`. -/
theorem c3_witness :
    ({ c3Norm with retransmit := true } : ChunkPayloadData).retransmit = true ∧
      4 * c3Assoc.mtu ≤ (on_retransmission_timeout_t3rtx c3Assoc).ssthresh := by
  refine ⟨(c3_t3rtx_amended c3Assoc).2.2.1 6 _ ?_ (by decide) (by decide),
    (c3_t3rtx_amended c3Assoc).2.2.2.2 (by decide)⟩
  decide

theorem unregister_stream_state (a : Assoc) (si : Nat) :
    (unregister_stream a si).state = a.state := rfl

theorem foldl_unregister_state (l : List (Nat × StreamState)) (a : Assoc) :
    (l.foldl (fun acc kv => unregister_stream acc kv.fst) a).state = a.state := by
  induction l generalizing a with
  | nil => rfl
  | cons kv rest ih => simpa using ih (unregister_stream a kv.fst)

theorem close_state (a : Assoc) : (close a).state = AssociationState.closed := by
  unfold close
  split
  · rw [foldl_unregister_state]
    rfl
  · next h =>
    have : ¬a.state ≠ AssociationState.closed := by simpa using h
    simpa using this

theorem close_of_closed (a : Assoc) (h : a.state = AssociationState.closed) :
    close a = a := by
  simp [close, h]

/-- C7: `close` is idempotent (the second and later calls change nothing),
but it stores no error and queues no event, so on an association with no
queued events and no stored error — such as `c7Assoc`, freshly established —
polling after `close()` yields zero `AssociationLost` events, not one:
`close` never constructs `LocallyClosed` and `poll` only reports a stored
error. -/
theorem c7_close_idempotent_but_no_lost_event :
    (∀ a : Assoc, close (close a) = close a) ∧
    ((pollAll 5 (close c7Assoc)).filter isLostEvent).length = 0 ∧
    (close c7Assoc).state = AssociationState.closed ∧
    c7Assoc.events = [] ∧ c7Assoc.error = none ∧ (close c7Assoc).error = none := by
  refine ⟨fun a => close_of_closed _ (close_state a), ?_, close_state c7Assoc, rfl, rfl, ?_⟩
  · decide
  · decide

/-- C5: handling a duplicate DATA chunk (TSN 3, at most the cumulative ack
5) leaves the payload queue — including its byte count and, crucially, its
duplicate-TSN log — completely unchanged, and the next SACK the association
builds reports an empty duplicate list: the duplicate is dropped but never
recorded, because `handle_data` only calls `PayloadQueue::push` (the sole
recorder of duplicates) when `can_push` already holds. -/
theorem c5_duplicate_dropped_never_recorded :
    sna32lte c5Dup.tsn c5Assoc.peer_last_tsn = true ∧
    c5Out.payload_queue = c5Assoc.payload_queue ∧
    c5Out.payload_queue.dup_tsn = [] ∧
    (create_selective_ack_chunk c5Out).snd.duplicate_tsn = [] := by
  decide

/-- C6: an INIT received in `ShutdownAckSent` is rejected with
`ErrHandleInitState`, although the claim (and the RFC rule quoted in the
source's own comment) lists `ShutdownAckSent` among the states where INIT
is handled; in `Closed`, `CookieWait` and `CookieEchoed` the same INIT
succeeds and produces exactly one reply packet consisting of one INIT-ACK
chunk, and in `Established` it is rejected. -/
theorem c6_init_rejected_in_shutdown_ack_sent :
    handle_init c6Assoc c6Pkt c6Init = .error .errHandleInitState ∧
    (∃ r, handle_init { c6Assoc with state := .closed } c6Pkt c6Init = .ok r ∧
      (r.snd.map fun p => p.chunks.map isInitAck) = [[true]]) ∧
    (∃ r, handle_init { c6Assoc with state := .cookieWait } c6Pkt c6Init = .ok r ∧
      (r.snd.map fun p => p.chunks.map isInitAck) = [[true]]) ∧
    (∃ r, handle_init { c6Assoc with state := .cookieEchoed } c6Pkt c6Init = .ok r ∧
      (r.snd.map fun p => p.chunks.map isInitAck) = [[true]]) ∧
    handle_init { c6Assoc with state := .established } c6Pkt c6Init =
      .error .errHandleInitState := by
  refine ⟨by decide, ⟨_, rfl, by decide⟩, ⟨_, rfl, by decide⟩, ⟨_, rfl, by decide⟩, by decide⟩

theorem countSacks_append (l1 l2 : List OutPacket) :
    countSacks (l1 ++ l2) = countSacks l1 + countSacks l2 := by
  simp [countSacks]

theorem gather_sack_immediate (a : Assoc) (raw : List OutPacket)
    (h : a.ack_state = AckState.immediate) :
    gather_outbound_sack_packets a raw =
      ((create_selective_ack_chunk { a with ack_state := AckState.idle }).fst,
        raw ++
          [create_packet (create_selective_ack_chunk { a with ack_state := AckState.idle }).fst
            [OutChunk.sack (create_selective_ack_chunk { a with ack_state := AckState.idle }).snd]]) := by
  unfold gather_outbound_sack_packets
  rw [if_pos (by simp [h])]

/-- C8: the per-packet ack flags are cleared by `handle_chunk_start`;
`handle_chunk_end` promotes the immediate flag to `AckState.Immediate`
stopping the Ack timer, else the delayed flag to `AckState.Delay` arming
the Ack timer for 200 ms, else changes nothing; a gathering pass emits one
SACK exactly when the ack state is `Immediate` and resets it to `Idle`; so
one inbound packet's chunk iteration followed by a gathering pass adds at
most one SACK to the outbound batch. -/
theorem c8_at_most_one_sack_per_packet :
    (∀ a : Assoc, (handle_chunk_start a).delayed_ack_triggered = false ∧
        (handle_chunk_start a).immediate_ack_triggered = false) ∧
    (∀ (a : Assoc) (now : Nat),
        (a.immediate_ack_triggered = true →
          (handle_chunk_end a now).ack_state = AckState.immediate ∧
          (handle_chunk_end a now).timers.ack = none) ∧
        (a.immediate_ack_triggered = false → a.delayed_ack_triggered = true →
          (handle_chunk_end a now).ack_state = AckState.delay ∧
          (handle_chunk_end a now).timers.ack = some (now + ACK_INTERVAL)) ∧
        (a.immediate_ack_triggered = false → a.delayed_ack_triggered = false →
          handle_chunk_end a now = a)) ∧
    (∀ (a : Assoc) (raw : List OutPacket),
        (a.ack_state = AckState.immediate →
          countSacks (gather_outbound_sack_packets a raw).snd = countSacks raw + 1 ∧
          (gather_outbound_sack_packets a raw).fst.ack_state = AckState.idle) ∧
        (a.ack_state ≠ AckState.immediate →
          gather_outbound_sack_packets a raw = (a, raw))) ∧
    (∀ (a : Assoc) (now : Nat) (raw : List OutPacket),
        countSacks (gather_outbound_sack_packets (handle_chunk_end a now) raw).snd ≤
          countSacks raw + 1) := by
  have hgather : ∀ (a : Assoc) (raw : List OutPacket),
      (a.ack_state = AckState.immediate →
        countSacks (gather_outbound_sack_packets a raw).snd = countSacks raw + 1 ∧
        (gather_outbound_sack_packets a raw).fst.ack_state = AckState.idle) ∧
      (a.ack_state ≠ AckState.immediate →
        gather_outbound_sack_packets a raw = (a, raw)) := by
    intro a raw
    constructor
    · intro h
      rw [gather_sack_immediate a raw h]
      constructor
      · rw [countSacks_append]
        rfl
      · rfl
    · intro h
      have hb : (a.ack_state == AckState.immediate) = false := by
        simpa using h
      unfold gather_outbound_sack_packets
      rw [if_neg (by simp [hb])]
  refine ⟨fun a => ⟨rfl, rfl⟩, ?_, hgather, ?_⟩
  · intro a now
    refine ⟨?_, ?_, ?_⟩
    · intro h
      simp [handle_chunk_end, h]
      rfl
    · intro h1 h2
      simp [handle_chunk_end, h1, h2]
      rfl
    · intro h1 h2
      simp [handle_chunk_end, h1, h2]
  · intro a now raw
    by_cases h : (handle_chunk_end a now).ack_state = AckState.immediate
    · rw [((hgather _ raw).1 h).1]
    · rw [(hgather _ raw).2 h]
      exact Nat.le_succ_of_le (Nat.le_refl _)

/-- C8 (witness): the flag promotion and single-SACK emission exercised on
`c8Assoc`, whose packet iteration requested an immediate ack. -/
theorem c8_witness :
    (handle_chunk_end c8Assoc 10).ack_state = AckState.immediate ∧
    (handle_chunk_end c8Assoc 10).timers.ack = none ∧
    countSacks (gather_outbound_sack_packets (handle_chunk_end c8Assoc 10) []).snd = 1 ∧
    (gather_outbound_sack_packets (handle_chunk_end c8Assoc 10) []).fst.ack_state =
      AckState.idle := by
  obtain ⟨h1, h2⟩ := (c8_at_most_one_sack_per_packet.2.1 c8Assoc 10).1 rfl
  obtain ⟨h3, h4⟩ :=
    (c8_at_most_one_sack_per_packet.2.2.1 (handle_chunk_end c8Assoc 10) []).1 h1
  refine ⟨h1, h2, ?_, h4⟩
  rw [h3]
  rfl

theorem frStep_fields (htna : Nat) (a : Assoc) (tsn : Nat) (a2 : Assoc)
    (h : frStep htna a tsn = .ok a2) :
    (a2.in_fast_recovery = a.in_fast_recovery ∧ a2.cwnd = a.cwnd ∧ a2.mtu = a.mtu ∧
      a2.ssthresh = a.ssthresh ∧ a2.partial_bytes_acked = a.partial_bytes_acked ∧
      a2.will_retransmit_fast = a.will_retransmit_fast ∧
      a2.fast_recover_exit_point = a.fast_recover_exit_point) ∨
    (a.in_fast_recovery = false ∧ frSettled a htna a2) := by
  cases hg : a.inflight_queue.get tsn with
  | none => simp [frStep, hg] at h
  | some c =>
    simp only [frStep, hg] at h
    by_cases h1 : (!c.acked && !c.abandoned && decide (c.miss_indicator < 3)) = true
    · rw [if_pos h1] at h
      by_cases h2 : ((c.miss_indicator + 1 == 3) && !a.in_fast_recovery) = true
      · rw [if_pos h2] at h
        right
        have hfr : a.in_fast_recovery = false := by
          have := (Bool.and_eq_true_iff.mp h2).2
          simpa using this
        cases h
        exact ⟨hfr, rfl, rfl, rfl, rfl, rfl, rfl⟩
      · rw [if_neg h2] at h
        cases h
        left
        exact ⟨rfl, rfl, rfl, rfl, rfl, rfl, rfl⟩
    · rw [if_neg h1] at h
      cases h
      left
      exact ⟨rfl, rfl, rfl, rfl, rfl, rfl, rfl⟩

theorem frSettled_of_eq_fields (a0 b0 : Assoc) (htna : Nat) (a b : Assoc)
    (hs : frSettled a0 htna a)
    (hfr : b.in_fast_recovery = a.in_fast_recovery) (hc : b.cwnd = a.cwnd)
    (hss : b.ssthresh = a.ssthresh) (hp : b.partial_bytes_acked = a.partial_bytes_acked)
    (hw : b.will_retransmit_fast = a.will_retransmit_fast)
    (hx : b.fast_recover_exit_point = a.fast_recover_exit_point)
    (hcw : b0.cwnd = a0.cwnd) (hmt : b0.mtu = a0.mtu) :
    frSettled b0 htna b := by
  obtain ⟨s1, s2, s3, s4, s5, s6⟩ := hs
  exact ⟨by rw [hfr, s1], by rw [hx, s2], by rw [hss, s3, hcw, hmt],
    by rw [hc, hss, s4], by rw [hp, s5], by rw [hw, s6]⟩

theorem frLoop_preserves (htna max_tsn : Nat) (a0 : Assoc) :
    ∀ (fuel tsn : Nat) (a a2 : Assoc), frLoop htna max_tsn fuel tsn a = .ok a2 →
      (frPre a0 a ∨ frSettled a0 htna a) → (frPre a0 a2 ∨ frSettled a0 htna a2) := by
  intro fuel
  induction fuel with
  | zero =>
    intro tsn a a2 h hp
    unfold frLoop at h
    cases h
    exact hp
  | succ n ih =>
    intro tsn a a2 h hp
    unfold frLoop at h
    by_cases hg : sna32lt tsn max_tsn = true
    · rw [if_pos hg] at h
      cases hs : frStep htna a tsn with
      | error e => rw [hs] at h; cases h
      | ok b =>
        rw [hs] at h
        refine ih ((tsn + 1) % U32) b a2 h ?_
        rcases frStep_fields htna a tsn b hs with
          ⟨f1, f2, f3, f4, f5, f6, f7⟩ | ⟨hfr, hset⟩
        · rcases hp with ⟨p1, p2, p3⟩ | hset
          · exact Or.inl ⟨by rw [f1, p1], by rw [f2, p2], by rw [f3, p3]⟩
          · exact Or.inr (frSettled_of_eq_fields a0 a0 htna a b hset f1 f2 f4 f5 f6 f7 rfl rfl)
        · rcases hp with ⟨p1, p2, p3⟩ | hset
          · right
            obtain ⟨s1, s2, s3, s4, s5, s6⟩ := hset
            exact ⟨s1, s2, by rw [s3, p2, p3], s4, s5, s6⟩
          · rw [hset.1] at hfr
            cases hfr
    · rw [if_neg hg] at h
      cases h
      exact hp

/-- C2: when the miss indicator of an unacked, non-abandoned inflight chunk
reaches exactly 3 while the association is not in fast recovery, fast
recovery is entered with `fast_recover_exit_point = HTNA`,
`ssthresh = max(cwnd/2, 4*mtu)`, `cwnd = ssthresh`,
`partial_bytes_acked = 0` and `will_retransmit_fast` set — both at the
level of the single miss-indicator step and for the whole
`process_fast_retransmission` run (any run that starts outside fast
recovery and ends inside it ends with exactly these settings). -/
theorem c2_fast_recovery_entry :
    (∀ (a : Assoc) (htna tsn : Nat) (c : ChunkPayloadData),
        a.inflight_queue.get tsn = some c → c.acked = false → c.abandoned = false →
        c.miss_indicator = 2 → a.in_fast_recovery = false →
        ∃ a2, frStep htna a tsn = .ok a2 ∧ frSettled a htna a2) ∧
    (∀ (a : Assoc) (cum htna : Nat) (adv : Bool) (a2 : Assoc),
        process_fast_retransmission a cum htna adv = .ok a2 →
        a.in_fast_recovery = false → a2.in_fast_recovery = true →
        frSettled a htna a2) := by
  constructor
  · intro a htna tsn c hget hacked hab hmiss hfr
    simp only [frStep, hget]
    rw [if_pos (by simp [hacked, hab, hmiss]), if_pos (by simp [hmiss, hfr])]
    exact ⟨_, rfl, rfl, rfl, rfl, rfl, rfl, rfl⟩
  · intro a cum htna adv a2 h hpre hpost
    unfold process_fast_retransmission at h
    rw [if_pos (by simp [hpre])] at h
    cases hF : frLoop htna (if !a.in_fast_recovery then htna
        else (cum + a.inflight_queue.len + 1) % U32)
        (((if !a.in_fast_recovery then htna
            else (cum + a.inflight_queue.len + 1) % U32) + U32 - (cum + 1) % U32) % U32)
        ((cum + 1) % U32) a with
    | error e => rw [hF] at h; simp [frFinish] at h
    | ok b =>
      rw [hF] at h
      simp only [frFinish] at h
      have hb : frPre a b ∨ frSettled a htna b :=
        frLoop_preserves htna _ a _ _ a b hF (Or.inl ⟨hpre, rfl, rfl⟩)
      by_cases hcond : (b.in_fast_recovery && adv) = true
      · rw [if_pos hcond] at h
        cases h
        rcases hb with ⟨p1, _, _⟩ | hset
        · rw [(Bool.and_eq_true_iff.mp hcond).1] at p1
          cases p1
        · obtain ⟨s1, s2, s3, s4, s5, s6⟩ := hset
          exact ⟨s1, s2, s3, s4, s5, rfl⟩
      · rw [if_neg hcond] at h
        cases h
        rcases hb with ⟨p1, _, _⟩ | hset
        · rw [hpost] at p1
          cases p1
        · exact hset

/-- C2 (witness): fast-recovery entry exercised on `c2Assoc` (cwnd 4000,
mtu 800, chunk 11 with miss indicator 2): both the step and the full run
end with `ssthresh = cwnd = 3200`, exit point 12. -/
theorem c2_witness :
    (∃ a2, frStep 12 c2Assoc 11 = .ok a2 ∧ frSettled c2Assoc 12 a2) ∧
    frSettled c2Assoc 12 c2Res := by
  constructor
  · exact c2_fast_recovery_entry.1 c2Assoc 12 11 c2Chunk (by decide) rfl rfl rfl rfl
  · exact c2_fast_recovery_entry.2 c2Assoc 10 12 false c2Res rfl rfl (by decide)

theorem alistGet_replace {β : Type} (m : List (Nat × β)) (k : Nat) (v : β)
    (hc : alistContains m k = true) :
    alistGet (m.map fun kv => if kv.fst == k then (k, v) else kv) k = some v := by
  induction m with
  | nil => simp [alistContains] at hc
  | cons kv rest ih =>
    by_cases hk : (kv.fst == k) = true
    · simp [alistGet, List.find?, hk]
    · have hc2 : alistContains rest k = true := by
        have : (kv.fst == k) || alistContains rest k = true := by
          simpa [alistContains, List.any] using hc
        simpa [hk] using this
      have hk2 : (kv.fst == k) = false := by simpa using hk
      simpa [alistGet, List.find?, hk2] using ih hc2

theorem alistGet_append_self {β : Type} (m : List (Nat × β)) (k : Nat) (v : β)
    (hc : alistContains m k = false) :
    alistGet (m ++ [(k, v)]) k = some v := by
  induction m with
  | nil => simp [alistGet, List.find?]
  | cons kv rest ih =>
    have hk : (kv.fst == k) = false := by
      have := hc
      simp [alistContains, List.any] at this
      simpa using this.1
    have hc2 : alistContains rest k = false := by
      have := hc
      simp [alistContains, List.any] at this
      simpa [alistContains] using this.2
    simpa [alistGet, List.find?, hk] using ih hc2

theorem alistGet_insert {β : Type} (m : List (Nat × β)) (k : Nat) (v : β) :
    alistGet (alistInsert m k v) k = some v := by
  unfold alistInsert
  by_cases hc : alistContains m k = true
  · rw [if_pos hc]
    exact alistGet_replace m k v hc
  · rw [if_neg hc]
    exact alistGet_append_self m k v (by simpa using hc)

theorem mark_as_acked_get (q : PayloadQueue) (tsn : Nat) (c : ChunkPayloadData)
    (h : q.get tsn = some c) :
    (q.mark_as_acked tsn).snd.get tsn =
      some { c with acked := true, retransmit := false, user_data := [] } ∧
    (q.mark_as_acked tsn).fst = c.user_data.length := by
  unfold PayloadQueue.get at h
  unfold PayloadQueue.mark_as_acked
  rw [h]
  exact ⟨alistGet_insert _ _ _, rfl⟩

theorem sampleEvolution_of_fields (a b : Assoc)
    (h1 : b.rtt_samples = a.rtt_samples) (h2 : b.min_tsn2measure_rtt = a.min_tsn2measure_rtt)
    (h3 : b.my_next_tsn = a.my_next_tsn) : sampleEvolution a b := by
  refine ⟨[], by simp [h1], by simp, by simp, fun _ => Or.inl h2, h3⟩

theorem sampleEvolution_refl (a : Assoc) : sampleEvolution a a :=
  sampleEvolution_of_fields a a rfl rfl rfl

theorem sampleEvolution_trans (a b c : Assoc)
    (hab : sampleEvolution a b) (hbc : sampleEvolution b c) : sampleEvolution a c := by
  obtain ⟨l1, e1, n1, m1, z1, x1⟩ := hab
  obtain ⟨l2, e2, n2, m2, z2, x2⟩ := hbc
  refine ⟨l1 ++ l2, by rw [e2, e1, List.append_assoc], ?_, ?_, ?_, by rw [x2, x1]⟩
  · intro x hx
    rcases List.mem_append.mp hx with hx | hx
    · exact n1 x hx
    · exact n2 x hx
  · intro hne
    by_cases h2e : l2 = []
    · have h1e : l1 ≠ [] := by
        intro h1e
        exact hne (by rw [h1e, h2e]; rfl)
      rcases z2 h2e with hz | hz
      · rw [hz, m1 h1e]
      · rw [hz, x1]
    · rw [m2 h2e, x1]
  · intro hz
    have h1e : l1 = [] := by
      cases l1 with
      | nil => rfl
      | cons y ys => simp at hz
    have h2e : l2 = [] := by
      cases l2 with
      | nil => rfl
      | cons y ys => rw [h1e] at hz; simp at hz
    rcases z2 h2e with hz2 | hz2
    · rcases z1 h1e with hz1 | hz1
      · exact Or.inl (by rw [hz2, hz1])
      · exact Or.inr (by rw [hz2, hz1])
    · exact Or.inr (by rw [hz2, x1])

theorem sackPopBody_rtt (a : Assoc) (c : ChunkPayloadData) (i now : Nat)
    (baps : List (Nat × Nat)) :
    (sackPopBody a c i now baps).fst.rtt_samples =
      a.rtt_samples ++
        (if (!c.acked && (c.nsent == 1 && sna32gte c.tsn a.min_tsn2measure_rtt)) = true
         then rttSampleOf c now else []) := by
  by_cases ha : c.acked = true
  · simp [sackPopBody, ha]
    split <;> rfl
  · have ha2 : c.acked = false := by simpa using ha
    by_cases hn : (c.nsent == 1 && sna32gte c.tsn a.min_tsn2measure_rtt) = true
    · cases hs : c.since with
      | none =>
        simp [sackPopBody, ha2, hn, feedRtt, rttSampleOf, hs]
        repeat' split
        all_goals rfl
      | some s =>
        simp [sackPopBody, ha2, hn, feedRtt, rttSampleOf, hs]
        repeat' split
        all_goals rfl
    · have hn2 : (c.nsent == 1 && sna32gte c.tsn a.min_tsn2measure_rtt) = false := by
        simpa using hn
      simp [sackPopBody, ha2, hn2]
      repeat' split
      all_goals rfl

theorem sackPopBody_min_next (a : Assoc) (c : ChunkPayloadData) (i now : Nat)
    (baps : List (Nat × Nat)) :
    ((sackPopBody a c i now baps).fst.min_tsn2measure_rtt = a.min_tsn2measure_rtt ∨
      (sackPopBody a c i now baps).fst.min_tsn2measure_rtt = a.my_next_tsn) ∧
    ((!c.acked && (c.nsent == 1 && sna32gte c.tsn a.min_tsn2measure_rtt)) = true →
      (sackPopBody a c i now baps).fst.min_tsn2measure_rtt = a.my_next_tsn) ∧
    (sackPopBody a c i now baps).fst.my_next_tsn = a.my_next_tsn := by
  by_cases ha : c.acked = true
  · simp [sackPopBody, ha]
    constructor
    · split <;> exact Or.inl rfl
    · split <;> rfl
  · have ha2 : c.acked = false := by simpa using ha
    by_cases hn : (c.nsent == 1 && sna32gte c.tsn a.min_tsn2measure_rtt) = true
    · cases hs : c.since with
      | none =>
        refine ⟨Or.inr ?_, fun _ => ?_, ?_⟩ <;>
          · simp [sackPopBody, ha2, hn, feedRtt, hs]
            repeat' split
            all_goals rfl
      | some s =>
        refine ⟨Or.inr ?_, fun _ => ?_, ?_⟩ <;>
          · simp [sackPopBody, ha2, hn, feedRtt, hs]
            repeat' split
            all_goals rfl
    · have hn2 : (c.nsent == 1 && sna32gte c.tsn a.min_tsn2measure_rtt) = false := by
        simpa using hn
      refine ⟨Or.inl ?_, fun hcc => ?_, ?_⟩
      · simp [sackPopBody, ha2, hn2]
        repeat' split
        all_goals rfl
      · rw [ha2, hn2] at hcc
        simp at hcc
      · simp [sackPopBody, ha2, hn2]
        repeat' split
        all_goals rfl

theorem sackPopBody_evolution (a : Assoc) (c : ChunkPayloadData) (i now : Nat)
    (baps : List (Nat × Nat)) : sampleEvolution a (sackPopBody a c i now baps).fst := by
  refine ⟨(if (!c.acked && (c.nsent == 1 && sna32gte c.tsn a.min_tsn2measure_rtt)) = true
    then rttSampleOf c now else []), sackPopBody_rtt a c i now baps, ?_, ?_, ?_,
    (sackPopBody_min_next a c i now baps).2.2⟩
  · intro x hx
    by_cases hcc : (!c.acked && (c.nsent == 1 && sna32gte c.tsn a.min_tsn2measure_rtt)) = true
    · rw [if_pos hcc] at hx
      have h1 : c.nsent = 1 := by
        have := (Bool.and_eq_true_iff.mp hcc).2
        have := (Bool.and_eq_true_iff.mp this).1
        simpa using this
      unfold rttSampleOf at hx
      cases hs : c.since with
      | none => rw [hs] at hx; cases hx
      | some s =>
        rw [hs] at hx
        have hxx : x = (c.tsn, c.nsent, now - s) := by simpa using hx
        rw [hxx]
        exact h1
    · rw [if_neg hcc] at hx
      cases hx
  · intro hne
    by_cases hcc : (!c.acked && (c.nsent == 1 && sna32gte c.tsn a.min_tsn2measure_rtt)) = true
    · exact (sackPopBody_min_next a c i now baps).2.1 hcc
    · rw [if_neg hcc] at hne
      cases hne rfl
  · intro _
    exact (sackPopBody_min_next a c i now baps).1

theorem sackGapTsn_rtt (now : Nat) (a : Assoc) (baps : List (Nat × Nat)) (htna tsn : Nat)
    (c : ChunkPayloadData) (hc : a.inflight_queue.get tsn = some c) :
    ∃ r, sackGapTsn now (a, baps, htna) tsn = .ok r ∧
      r.fst.rtt_samples = a.rtt_samples ++
        (if (!c.acked && c.nsent == 1) = true then rttSampleOf c now else []) := by
  by_cases ha : c.acked = true
  · refine ⟨(a, baps, htna), ?_, by simp [ha]⟩
    simp [sackGapTsn, hc, ha]
  · have ha2 : c.acked = false := by simpa using ha
    obtain ⟨hget2, hlen⟩ := mark_as_acked_get a.inflight_queue tsn c hc
    by_cases hn1 : (c.nsent == 1) = true
    · cases hs : c.since with
      | none =>
        simp [sackGapTsn, hc, ha2, hget2, hn1, feedRtt, rttSampleOf, hs]
      | some s =>
        simp [sackGapTsn, hc, ha2, hget2, hn1, feedRtt, rttSampleOf, hs]
    · have hn2 : (c.nsent == 1) = false := by simpa using hn1
      simp [sackGapTsn, hc, ha2, hget2, hn2]

theorem sackGapTsn_ok_evolution (now : Nat) (st : Assoc × List (Nat × Nat) × Nat) (tsn : Nat)
    (r : Assoc × List (Nat × Nat) × Nat) (h : sackGapTsn now st tsn = .ok r) :
    sampleEvolution st.fst r.fst := by
  obtain ⟨a, baps, htna⟩ := st
  cases hc : a.inflight_queue.get tsn with
  | none => simp [sackGapTsn, hc] at h
  | some c =>
    by_cases ha : c.acked = true
    · simp [sackGapTsn, hc, ha] at h
      subst h
      exact sampleEvolution_refl a
    · have ha2 : c.acked = false := by simpa using ha
      obtain ⟨hget2, hlen⟩ := mark_as_acked_get a.inflight_queue tsn c hc
      by_cases hn1 : (c.nsent == 1) = true
      · have hnum : c.nsent = 1 := by simpa using hn1
        cases hs : c.since with
        | none =>
          simp [sackGapTsn, hc, ha2, hget2, hn1, feedRtt, rttSampleOf, hs] at h
          subst h
          refine ⟨[], by simp, by simp, by simp, fun _ => Or.inr rfl, rfl⟩
        | some s =>
          simp [sackGapTsn, hc, ha2, hget2, hn1, feedRtt, rttSampleOf, hs] at h
          subst h
          refine ⟨[(c.tsn, c.nsent, now - s)], by simp, ?_, fun _ => rfl,
            fun hz => absurd hz (by simp), rfl⟩
          intro x hx
          have hxx : x = (c.tsn, c.nsent, now - s) := by simpa using hx
          rw [hxx]
          exact hnum
      · have hn2 : (c.nsent == 1) = false := by simpa using hn1
        simp [sackGapTsn, hc, ha2, hget2, hn2] at h
        subst h
        exact sampleEvolution_of_fields _ _ rfl rfl rfl

theorem sackPopLoop_evolution (cumAck now : Nat) :
    ∀ (fuel i : Nat) (a : Assoc) (baps : List (Nat × Nat)) (r : Assoc × List (Nat × Nat)),
      sackPopLoop cumAck now fuel i a baps = .ok r → sampleEvolution a r.fst := by
  intro fuel
  induction fuel with
  | zero =>
    intro i a baps r h
    unfold sackPopLoop at h
    cases h
    exact sampleEvolution_refl a
  | succ n ih =>
    intro i a baps r h
    unfold sackPopLoop at h
    by_cases hg : sna32lte i cumAck = true
    · rw [if_pos hg] at h
      cases hp : a.inflight_queue.pop i with
      | mk oc q =>
        cases oc with
        | none => rw [hp] at h; cases h
        | some c =>
          rw [hp] at h
          refine sampleEvolution_trans _ _ _ ?_
            (ih ((i + 1) % U32) _ _ r h)
          exact sampleEvolution_trans _ _ _
            (sampleEvolution_of_fields a { a with inflight_queue := q } rfl rfl rfl)
            (sackPopBody_evolution { a with inflight_queue := q } c i now baps)
    · rw [if_neg hg] at h
      cases h
      exact sampleEvolution_refl a

theorem foldExcept_gap_evolution (now : Nat) :
    ∀ (l : List Nat) (st r : Assoc × List (Nat × Nat) × Nat),
      foldExcept (sackGapTsn now) st l = .ok r → sampleEvolution st.fst r.fst := by
  intro l
  induction l with
  | nil =>
    intro st r h
    unfold foldExcept at h
    cases h
    exact sampleEvolution_refl _
  | cons x xs ih =>
    intro st r h
    unfold foldExcept at h
    cases hs : sackGapTsn now st x with
    | error e => rw [hs] at h; cases h
    | ok s2 =>
      rw [hs] at h
      exact sampleEvolution_trans _ _ _ (sackGapTsn_ok_evolution now st x s2 hs) (ih s2 r h)

theorem process_selective_ack_evolution (a : Assoc) (d : ChunkSelectiveAck) (now : Nat)
    (r : Assoc × List (Nat × Nat) × Nat) (h : process_selective_ack a d now = .ok r) :
    sampleEvolution a r.fst := by
  simp only [process_selective_ack] at h
  cases hp : sackPopLoop d.cumulative_tsn_ack now
      ((d.cumulative_tsn_ack + U32 - (a.cumulative_tsn_ack_point + 1) % U32) % U32 + 1)
      ((a.cumulative_tsn_ack_point + 1) % U32) a [] with
  | error e => rw [hp] at h; cases h
  | ok s2 =>
    obtain ⟨a2, baps⟩ := s2
    rw [hp] at h
    exact sampleEvolution_trans _ _ _
      (sackPopLoop_evolution d.cumulative_tsn_ack now _ _ a [] (a2, baps) hp)
      (foldExcept_gap_evolution now (gapTsns d) (a2, baps, d.cumulative_tsn_ack) r h)

/-- C1 (amended): RTT samples and the RTO manager.  (i) In the
cumulative-ack pop path a popped chunk feeds an RTT sample exactly when it
was not already acked, `nsent = 1` and its TSN is serially at least
`min_tsn2measure_rtt` (and `since` is set).  (ii) In the gap-block path a
reported chunk feeds a sample exactly when it is present, not already
acked and `nsent = 1` — the `min_tsn2measure_rtt` gate is NOT applied
there, which is what the counterexample exhibits.  (iii) Across any
successful `process_selective_ack` run, every sample fed to the RTO
manager has `nsent = 1` (so no retransmitted chunk ever produces one), and
whenever a sample was fed `min_tsn2measure_rtt` ends up reset to
`my_next_tsn`. -/
theorem c1_rtt_measurement_policy :
    (∀ (a : Assoc) (c : ChunkPayloadData) (i now : Nat) (baps : List (Nat × Nat)),
        (sackPopBody a c i now baps).fst.rtt_samples =
          a.rtt_samples ++
            (if (!c.acked && (c.nsent == 1 && sna32gte c.tsn a.min_tsn2measure_rtt)) = true
             then rttSampleOf c now else [])) ∧
    (∀ (now : Nat) (a : Assoc) (baps : List (Nat × Nat)) (htna tsn : Nat)
        (c : ChunkPayloadData),
        a.inflight_queue.get tsn = some c →
        ∃ r, sackGapTsn now (a, baps, htna) tsn = .ok r ∧
          r.fst.rtt_samples = a.rtt_samples ++
            (if (!c.acked && c.nsent == 1) = true then rttSampleOf c now else [])) ∧
    (∀ (a : Assoc) (d : ChunkSelectiveAck) (now : Nat) (r : Assoc × List (Nat × Nat) × Nat),
        process_selective_ack a d now = .ok r → sampleEvolution a r.fst) :=
  ⟨sackPopBody_rtt, sackGapTsn_rtt, process_selective_ack_evolution⟩

/-- C1 (counterexample): processing `c1Sack` on `c1Assoc` feeds the RTO
manager an RTT sample for the gap-acked chunk with TSN 11 and `nsent = 1`
even though TSN 11 is serially below `min_tsn2measure_rtt = 100`,
contradicting the claim that a sample is fed only when
`tsn >= min_tsn2measure_rtt`. -/
theorem c1_counterexample :
    c1Out.rtt_samples = [(11, 1, 5)] ∧
    c1Assoc.rtt_samples = [] ∧
    sna32gte 11 c1Assoc.min_tsn2measure_rtt = false ∧
    (c1Assoc.inflight_queue.get 11).map (fun c => c.nsent) = some 1 ∧
    c1Sack.gap_ack_blocks = [{ start := 1, ending := 1 }] := by
  decide

/-- C1 (witness): the amended theorem exercised on `c1Assoc`: the gap path
produces the sample for chunk 11, and the whole run satisfies the sample
evolution property. -/
theorem c1_witness :
    (∃ r, sackGapTsn 5 (c1Assoc, [], 10) 11 = .ok r ∧
      r.fst.rtt_samples = c1Assoc.rtt_samples ++
        (if (!c1Chunk.acked && c1Chunk.nsent == 1) = true then rttSampleOf c1Chunk 5
         else [])) ∧
    sampleEvolution c1Assoc c1Out := by
  constructor
  · exact c1_rtt_measurement_policy.2.1 5 c1Assoc [] 10 11 c1Chunk (by decide)
  · exact c1_rtt_measurement_policy.2.2 c1Assoc c1Sack 5 c1Res rfl

/-- Fields untouched by `check_partial_reliability_status`: it only ever sets
the abandoned flag. -/
theorem check_partial_fields (c : ChunkPayloadData) (now : Nat) (uft : Bool)
    (streams : List (Nat × StreamState)) :
    (check_partial_reliability_status c now uft streams).tsn = c.tsn ∧
    (check_partial_reliability_status c now uft streams).nsent = c.nsent ∧
    (check_partial_reliability_status c now uft streams).since = c.since ∧
    (check_partial_reliability_status c now uft streams).user_data = c.user_data ∧
    (check_partial_reliability_status c now uft streams).stream_identifier =
      c.stream_identifier := by
  unfold check_partial_reliability_status ChunkPayloadData.set_abandoned
  repeat' split
  all_goals exact ⟨rfl, rfl, rfl, rfl, rfl⟩

/-- What `move_pending_data_chunk_to_inflight_queue` does to the popped head
chunk and to the association. -/
theorem movePending_spec (a : Assoc) (bf uo : Bool) (now : Nat)
    (c0 : ChunkPayloadData) (rest : List ChunkPayloadData) (a2 : Assoc)
    (c2 : ChunkPayloadData)
    (hp : a.pending_queue = c0 :: rest)
    (h : move_pending_data_chunk_to_inflight_queue a bf uo now = some (a2, c2)) :
    c2.tsn = a.my_next_tsn ∧ c2.nsent = 1 ∧ c2.since = some now ∧
    c2.user_data = c0.user_data ∧ c2.stream_identifier = c0.stream_identifier ∧
    a2.my_next_tsn = (a.my_next_tsn + 1) % U32 ∧ a2.pending_queue = rest ∧
    a2.rwnd = a.rwnd ∧ a2.cwnd = a.cwnd := by
  simp only [move_pending_data_chunk_to_inflight_queue, pendingPop, hp] at h
  injection h with h
  injection h with hA hC
  subst hA; subst hC
  refine ⟨(check_partial_fields _ _ _ _).1, (check_partial_fields _ _ _ _).2.1,
    (check_partial_fields _ _ _ _).2.2.1, ?_, ?_, rfl, rfl, rfl, rfl⟩
  · refine ((check_partial_fields _ _ _ _).2.2.2.1).trans ?_
    show (if c0.ending_fragment then c0.set_all_inflight else c0).user_data = c0.user_data
    unfold ChunkPayloadData.set_all_inflight
    split <;> rfl
  · refine ((check_partial_fields _ _ _ _).2.2.2.2).trans ?_
    show (if c0.ending_fragment then c0.set_all_inflight else c0).stream_identifier =
      c0.stream_identifier
    unfold ChunkPayloadData.set_all_inflight
    split <;> rfl

/-- The drawing step produces a moved chunk only when the pending head has a
non-zero payload and passes both the cwnd and the rwnd gate; rwnd is debited,
the chunk gets the next TSN, nsent 1 and a fresh timestamp. -/
theorem popStep_moved (a : Assoc) (now : Nat) (a2 : Assoc) (c : ChunkPayloadData)
    (h : popStep a now = .moved a2 c) :
    ∃ c0 rest, a.pending_queue = c0 :: rest ∧ c0.user_data.length ≠ 0 ∧
      a.inflight_queue.get_num_bytes + c0.user_data.length ≤ a.cwnd ∧
      c0.user_data.length ≤ a.rwnd ∧
      a2.rwnd = a.rwnd - c0.user_data.length ∧
      c.tsn = a.my_next_tsn ∧ c.nsent = 1 ∧ c.since = some now ∧
      c.user_data = c0.user_data ∧
      a2.my_next_tsn = (a.my_next_tsn + 1) % U32 ∧
      a2.pending_queue = rest ∧ a2.cwnd = a.cwnd := by
  cases hq : a.pending_queue with
  | nil =>
    simp only [popStep, pendingPeek, hq, List.head?] at h
    exact PopStepRes.noConfusion h
  | cons c0 rest =>
    refine ⟨c0, rest, rfl, ?_⟩
    simp only [popStep, pendingPeek, pendingPop, hq, List.head?] at h
    split at h
    · exact PopStepRes.noConfusion h
    next hz =>
    split at h
    · exact PopStepRes.noConfusion h
    next hcw =>
    split at h
    · exact PopStepRes.noConfusion h
    next hrw =>
    split at h
    next a2' c2' hm =>
      injection h with h1 h2
      subst h1; subst h2
      obtain ⟨htsn, hns, hsince, hud, _hsid, hnext, hpend, hrwnd, hcwnd⟩ :=
        movePending_spec _ c0.beginning_fragment c0.unordered now c0 rest _ _ rfl hm
      refine ⟨by simpa using hz, by omega, by omega, ?_, htsn, hns, hsince, hud,
        hnext, hpend, hcwnd⟩
      rw [hrwnd]
    next hm => exact PopStepRes.noConfusion h

/-- The drawing step skips a chunk exactly by removing a zero-length pending
head and reporting its stream id; nothing else changes. -/
theorem popStep_skipped (a : Assoc) (now : Nat) (a2 : Assoc) (sid : Nat)
    (h : popStep a now = .skipped a2 sid) :
    ∃ c0 rest, a.pending_queue = c0 :: rest ∧ c0.user_data.length = 0 ∧
      sid = c0.stream_identifier ∧ a2.pending_queue = rest ∧
      a2.my_next_tsn = a.my_next_tsn ∧ a2.inflight_queue = a.inflight_queue ∧
      a2.rwnd = a.rwnd ∧ a2.cwnd = a.cwnd := by
  cases hq : a.pending_queue with
  | nil =>
    simp only [popStep, pendingPeek, hq, List.head?] at h
    exact PopStepRes.noConfusion h
  | cons c0 rest =>
    refine ⟨c0, rest, rfl, ?_⟩
    simp only [popStep, pendingPeek, pendingPop, hq, List.head?] at h
    split at h
    next hz =>
      injection h with h1 h2
      subst h1; subst h2
      exact ⟨by simpa using hz, rfl, rfl, rfl, rfl, rfl, rfl⟩
    next hz =>
      split at h
      · exact PopStepRes.noConfusion h
      split at h
      · exact PopStepRes.noConfusion h
      split at h
      · exact PopStepRes.noConfusion h
      · exact PopStepRes.noConfusion h

/-- When the drawing step exits the loop, a pending head (if any) is a real
data chunk: zero-length markers never stop the loop. -/
theorem popStep_exit (a : Assoc) (now : Nat) (h : popStep a now = .exitLoop)
    (c0 : ChunkPayloadData) (hc : a.pending_queue.head? = some c0) :
    c0.user_data.length ≠ 0 := by
  cases hq : a.pending_queue with
  | nil => rw [hq] at hc; exact Option.noConfusion hc
  | cons c1 rest =>
    rw [hq] at hc
    injection hc with hc
    subst hc
    simp only [popStep, pendingPeek, pendingPop, hq, List.head?] at h
    split at h
    · exact PopStepRes.noConfusion h
    next hz => simpa using hz

/-- Invariant of the drawing loop: the drawn chunks carry consecutive TSNs
from the starting `my_next_tsn`; if nothing was drawn the TSN counter is
untouched; and with enough fuel the loop never leaves a zero-length marker
at the head of the pending queue. -/
theorem popLoop_spec (now : Nat) : ∀ (fuel : Nat) (a : Assoc),
    consecutiveFrom now a.my_next_tsn (popLoop now fuel a).snd.fst ∧
    ((popLoop now fuel a).snd.fst = [] →
        (popLoop now fuel a).fst.my_next_tsn = a.my_next_tsn) ∧
    (a.pending_queue.length ≤ fuel →
      ∀ c0, (popLoop now fuel a).fst.pending_queue.head? = some c0 →
        c0.user_data.length ≠ 0) := by
  intro fuel
  induction fuel with
  | zero =>
    intro a
    refine ⟨trivial, fun _ => rfl, fun hlen c0 hc0 => ?_⟩
    have hnil : a.pending_queue = [] := List.length_eq_zero.mp (Nat.le_zero.mp hlen)
    rw [show (popLoop now 0 a).fst = a from rfl, hnil] at hc0
    exact Option.noConfusion hc0
  | succ n ih =>
    intro a
    cases hstep : popStep a now with
    | exitLoop =>
      refine ⟨?_, ?_, ?_⟩
      · simp only [popLoop, hstep]
        trivial
      · intro _
        simp only [popLoop, hstep]
      · intro _ c0 hc0
        simp only [popLoop, hstep] at hc0
        exact popStep_exit a now hstep c0 hc0
    | skipped a2 sid =>
      obtain ⟨c0, rest, hq, hz, hsid, hpend, hnext, hinf, hrw, hcw⟩ :=
        popStep_skipped a now a2 sid hstep
      obtain ⟨ih1, ih2, ih3⟩ := ih a2
      refine ⟨?_, ?_, ?_⟩
      · simp only [popLoop, hstep]
        rw [← hnext]
        exact ih1
      · intro h0
        simp only [popLoop, hstep] at h0 ⊢
        rw [ih2 h0, hnext]
      · intro hlen c1 hc1
        simp only [popLoop, hstep] at hc1
        have hlen2 : a2.pending_queue.length ≤ n := by
          rw [hpend]
          rw [hq] at hlen
          simp only [List.length_cons] at hlen
          omega
        exact ih3 hlen2 c1 hc1
    | moved a2 c =>
      obtain ⟨c0, rest, hq, hz, _hcw, _hrw, _hrwnd, htsn, hns, hsince, hud, hnext,
        hpend, _hcwnd⟩ := popStep_moved a now a2 c hstep
      obtain ⟨ih1, ih2, ih3⟩ := ih a2
      refine ⟨?_, ?_, ?_⟩
      · simp only [popLoop, hstep]
        refine ⟨htsn, hns, hsince, ?_, ?_⟩
        · rw [hud]; exact hz
        · rw [← hnext]
          exact ih1
      · intro h0
        simp only [popLoop, hstep] at h0
        exact List.noConfusion h0
      · intro hlen c1 hc1
        simp only [popLoop, hstep] at hc1
        have hlen2 : a2.pending_queue.length ≤ n := by
          rw [hpend]
          rw [hq] at hlen
          simp only [List.length_cons] at hlen
          omega
        exact ih3 hlen2 c1 hc1

/-- The chunks drawn by a full gathering pass (including a zero-window probe)
carry consecutive wrapping TSNs from `my_next_tsn`, nsent 1, timestamp `now`
and non-empty payloads. -/
theorem pop_pending_consecutive (a : Assoc) (now : Nat) :
    consecutiveFrom now a.my_next_tsn (pop_pending_data_chunks_to_send a now).snd.fst := by
  obtain ⟨h1, h2, h3⟩ := popLoop_spec now a.pending_queue.length a
  simp only [pop_pending_data_chunks_to_send]
  split
  case isTrue hne =>
    split
    case isTrue hcond =>
      have hchunks : (popLoop now a.pending_queue.length a).snd.fst = [] := by
        rw [Bool.and_eq_true] at hcond
        simpa using hcond.1
      split
      next c hpeek =>
        obtain ⟨rest, hpq⟩ :
            ∃ rest, (popLoop now a.pending_queue.length a).fst.pending_queue = c :: rest := by
          cases hqq : (popLoop now a.pending_queue.length a).fst.pending_queue with
          | nil => rw [hqq] at hpeek; exact Option.noConfusion hpeek
          | cons c1 r1 =>
            rw [hqq] at hpeek
            injection hpeek with hpeek
            exact ⟨r1, by rw [hpeek]⟩
        split
        next a2 ck hm =>
          obtain ⟨htsn, hns, hsince, hud, _, _, _, _, _⟩ :=
            movePending_spec _ c.beginning_fragment c.unordered now c rest a2 ck hpq hm
          have hmt : (popLoop now a.pending_queue.length a).fst.my_next_tsn =
              a.my_next_tsn := h2 hchunks
          refine ⟨by rw [htsn, hmt], hns, hsince, ?_, trivial⟩
          rw [hud]
          exact h3 (le_refl _) c (by rw [hpq]; rfl)
        next hm => exact trivial
      next hpeek => exact trivial
    case isFalse hcond => exact h1
  case isFalse hne => exact trivial

/-- A gathering pass returns either exactly the loop's chunks, or — when the
loop drew nothing and the inflight queue is empty — at most one probe chunk. -/
theorem pop_pending_probe (a : Assoc) (now : Nat) :
    (pop_pending_data_chunks_to_send a now).snd.fst =
        (popLoop now a.pending_queue.length a).snd.fst ∨
    ((popLoop now a.pending_queue.length a).snd.fst = [] ∧
     (popLoop now a.pending_queue.length a).fst.inflight_queue.is_empty = true ∧
     (pop_pending_data_chunks_to_send a now).snd.fst.length ≤ 1) := by
  simp only [pop_pending_data_chunks_to_send]
  split
  case isTrue hne =>
    split
    case isTrue hcond =>
      right
      rw [Bool.and_eq_true] at hcond
      obtain ⟨hemp, hinf⟩ := hcond
      refine ⟨by simpa using hemp, hinf, ?_⟩
      split
      next c hpeek =>
        split
        next a2 ck hm => simp
        next hm => simp
      next hpeek => simp
    case isFalse hcond => left; rfl
  case isFalse hne =>
    left
    have hemp : a.pending_queue = [] := by
      cases hq : a.pending_queue with
      | nil => rfl
      | cons x xs => rw [hq] at hne; exact absurd rfl hne
    rw [hemp]
    rfl

/-- C4: transmit-gathering drawing rules. (i) A chunk is moved from the
pending queue to the inflight queue only when its non-zero payload passes
both gates `inflight_bytes + len <= cwnd` and `len <= rwnd`, upon which rwnd
is debited by `len` and the chunk receives the next TSN, `nsent = 1` and
`since = now`; (ii) a zero-length pending head is removed with its stream id
reported and nothing moved to the inflight queue; (iii) over a whole
gathering pass, the emitted chunks carry consecutive wrapping TSNs starting
at `my_next_tsn`, each fresh and non-empty; (iv) the pass emits exactly the
loop's chunks, except that when the loop drew nothing and the inflight queue
is empty it emits at most one zero-window probe chunk. -/
theorem c4_transmit_drawing_rules :
    (∀ (a : Assoc) (now : Nat) (a2 : Assoc) (c : ChunkPayloadData),
        popStep a now = .moved a2 c →
        ∃ c0 rest, a.pending_queue = c0 :: rest ∧ c0.user_data.length ≠ 0 ∧
          a.inflight_queue.get_num_bytes + c0.user_data.length ≤ a.cwnd ∧
          c0.user_data.length ≤ a.rwnd ∧
          a2.rwnd = a.rwnd - c0.user_data.length ∧
          c.tsn = a.my_next_tsn ∧ c.nsent = 1 ∧ c.since = some now ∧
          c.user_data = c0.user_data ∧
          a2.my_next_tsn = (a.my_next_tsn + 1) % U32 ∧
          a2.pending_queue = rest ∧ a2.cwnd = a.cwnd) ∧
    (∀ (a : Assoc) (now : Nat) (a2 : Assoc) (sid : Nat),
        popStep a now = .skipped a2 sid →
        ∃ c0 rest, a.pending_queue = c0 :: rest ∧ c0.user_data.length = 0 ∧
          sid = c0.stream_identifier ∧ a2.pending_queue = rest ∧
          a2.my_next_tsn = a.my_next_tsn ∧ a2.inflight_queue = a.inflight_queue ∧
          a2.rwnd = a.rwnd ∧ a2.cwnd = a.cwnd) ∧
    (∀ (a : Assoc) (now : Nat),
        consecutiveFrom now a.my_next_tsn
          (pop_pending_data_chunks_to_send a now).snd.fst) ∧
    (∀ (a : Assoc) (now : Nat),
        (pop_pending_data_chunks_to_send a now).snd.fst =
            (popLoop now a.pending_queue.length a).snd.fst ∨
        ((popLoop now a.pending_queue.length a).snd.fst = [] ∧
         (popLoop now a.pending_queue.length a).fst.inflight_queue.is_empty = true ∧
         (pop_pending_data_chunks_to_send a now).snd.fst.length ≤ 1)) :=
  ⟨popStep_moved, popStep_skipped, pop_pending_consecutive, pop_pending_probe⟩

/-- C4 (witness): the drawing step on `c4A1` moves the three-byte chunk, and
the drawing rules instantiate on it. -/
theorem c4_witness :
    popStep c4A1 6 = .moved c4Moved.fst c4Moved.snd ∧
    ∃ c0 rest, c4A1.pending_queue = c0 :: rest ∧ c0.user_data.length ≠ 0 ∧
      c4A1.inflight_queue.get_num_bytes + c0.user_data.length ≤ c4A1.cwnd ∧
      c0.user_data.length ≤ c4A1.rwnd ∧
      c4Moved.fst.rwnd = c4A1.rwnd - c0.user_data.length ∧
      c4Moved.snd.tsn = c4A1.my_next_tsn ∧ c4Moved.snd.nsent = 1 ∧
      c4Moved.snd.since = some 6 ∧ c4Moved.snd.user_data = c0.user_data ∧
      c4Moved.fst.my_next_tsn = (c4A1.my_next_tsn + 1) % U32 ∧
      c4Moved.fst.pending_queue = rest ∧ c4Moved.fst.cwnd = c4A1.cwnd :=
  ⟨rfl, c4_transmit_drawing_rules.1 c4A1 6 c4Moved.fst c4Moved.snd rfl⟩

/-- Inserting with the serial-number comparator permutes: the sort step of
`update_sorted_keys` never loses or invents keys. -/
theorem snaInsert_perm (x : Nat) (l : List Nat) : (snaInsert x l).Perm (x :: l) := by
  induction l with
  | nil => simp [snaInsert]
  | cons y ys ih =>
    simp only [snaInsert]
    split
    · exact List.Perm.refl _
    · exact (ih.cons y).trans (List.Perm.swap x y ys)

/-- `update_sorted_keys` permutes its input. -/
theorem updateSortedKeys_perm (l : List Nat) : (updateSortedKeys l).Perm l := by
  induction l with
  | nil => simp [updateSortedKeys]
  | cons a t ih =>
    simp only [updateSortedKeys, List.foldr_cons]
    exact (snaInsert_perm a _).trans (ih.cons a)

/-- Key membership test of the association list, as a list membership. -/
theorem alistContains_iff {β : Type} (m : List (Nat × β)) (k : Nat) :
    alistContains m k = true ↔ k ∈ m.map Prod.fst := by
  simp [alistContains, List.any_eq_true, List.mem_map]

/-- A key present in the association list has a binding. -/
theorem mem_keys_alistGet_some {β : Type} (m : List (Nat × β)) (k : Nat)
    (hk : k ∈ m.map Prod.fst) : ∃ c, alistGet m k = some c := by
  induction m with
  | nil => simp at hk
  | cons kv t ih =>
    by_cases he : kv.fst = k
    · exact ⟨kv.snd, by simp [alistGet, List.find?_cons, he]⟩
    · have hk' : k ∈ t.map Prod.fst := by
        rw [List.map_cons, List.mem_cons] at hk
        rcases hk with h | h
        · exact absurd h.symm he
        · exact h
      obtain ⟨c, hc⟩ := ih hk'
      refine ⟨c, ?_⟩
      have hne : (kv.fst == k) = false := by simpa using he
      simpa [alistGet, List.find?_cons, hne] using hc

/-- Removal is the identity when the key is absent. -/
theorem alistRemove_of_not_mem {β : Type} (m : List (Nat × β)) (k : Nat)
    (hk : k ∉ m.map Prod.fst) : alistRemove m k = m := by
  induction m with
  | nil => rfl
  | cons kv t ih =>
    rw [List.map_cons, List.mem_cons] at hk
    push_neg at hk
    have hne : (kv.fst == k) = false := by
      simpa using fun he => hk.1 he.symm
    have ih' := ih hk.2
    unfold alistRemove at ih' ⊢
    rw [List.filter_cons, if_pos (by simp [hne])]
    rw [ih']

/-- Decomposition: with unique keys, a bound entry can be split off the
association list, the rest being the removal. -/
theorem alist_decomp {β : Type} (m : List (Nat × β)) (k : Nat) (c : β)
    (hnd : (m.map Prod.fst).Nodup) (hg : alistGet m k = some c) :
    m.Perm ((k, c) :: alistRemove m k) := by
  induction m with
  | nil => simp [alistGet] at hg
  | cons kv t ih =>
    rw [List.map_cons, List.nodup_cons] at hnd
    by_cases he : kv.fst = k
    · have hke : (kv.fst == k) = true := by simpa using he
      have hc : kv.snd = c := by
        simpa [alistGet, List.find?_cons, hke] using hg
      have hkt : k ∉ t.map Prod.fst := he ▸ hnd.1
      have hrt : alistRemove t k = t := alistRemove_of_not_mem t k hkt
      have hdrop : alistRemove (kv :: t) k = t := by
        unfold alistRemove at hrt ⊢
        rw [List.filter_cons, if_neg (by simp [hke]), hrt]
      rw [hdrop]
      have : kv = (k, c) := by
        rw [← he, ← hc]
      rw [this]
    · have hne : (kv.fst == k) = false := by simpa using he
      have hg' : alistGet t k = some c := by
        simpa [alistGet, List.find?_cons, hne] using hg
      have hkeep : alistRemove (kv :: t) k = kv :: alistRemove t k := by
        unfold alistRemove
        rw [List.filter_cons, if_pos (by simp [hne])]
      rw [hkeep]
      exact ((ih hnd.2 hg').cons kv).trans (List.Perm.swap (k, c) kv _)

/-- Replacing a binding in place keeps the key list. -/
theorem alist_replace_keys {β : Type} (m : List (Nat × β)) (k : Nat) (v : β) :
    (m.map fun kv => if kv.fst == k then (k, v) else kv).map Prod.fst =
      m.map Prod.fst := by
  rw [List.map_map]
  refine List.map_congr_left fun kv _ => ?_
  by_cases he : (kv.fst == k) = true
  · simp [Function.comp, he, (by simpa using he : kv.fst = k)]
  · simp [Function.comp, he]

/-- The in-place replacement map is the identity where the key is absent. -/
theorem alist_replace_of_not_mem {β : Type} (m : List (Nat × β)) (k : Nat) (v : β)
    (hk : k ∉ m.map Prod.fst) :
    m.map (fun kv => if kv.fst == k then (k, v) else kv) = m := by
  have : ∀ kv ∈ m, (if kv.fst == k then (k, v) else kv) = kv := by
    intro kv hkv
    have hne : (kv.fst == k) = false := by
      refine (Bool.eq_false_iff).mpr fun he => hk ?_
      have : kv.fst = k := by simpa using he
      exact this ▸ List.mem_map_of_mem Prod.fst hkv
    simp [hne]
  calc m.map (fun kv => if kv.fst == k then (k, v) else kv) = m.map id :=
        List.map_congr_left fun kv hkv => this kv hkv
    _ = m := List.map_id m

/-- A bound key is in the key list. -/
theorem alistGet_some_mem_keys {β : Type} (m : List (Nat × β)) (k : Nat) (c : β)
    (hg : alistGet m k = some c) : k ∈ m.map Prod.fst := by
  unfold alistGet at hg
  cases hf : m.find? (fun kv => kv.fst == k) with
  | none => rw [hf] at hg; exact Option.noConfusion hg
  | some kv =>
    have hp := List.find?_some hf
    have hm := List.mem_of_find?_eq_some hf
    have he : kv.fst = k := by simpa using hp
    exact he ▸ List.mem_map_of_mem Prod.fst hm

/-- A fresh insertion (the stored branch of `push`, and `push_no_check` on an
unstored TSN) preserves well-formedness. -/
theorem pqWF_insert_fresh (q : PayloadQueue) (p : ChunkPayloadData)
    (hw : pqWF q) (hf : alistContains q.chunk_map p.tsn = false) :
    pqWF { q with
      n_bytes := q.n_bytes + p.user_data.length
      sorted := updateSortedKeys (q.sorted ++ [p.tsn])
      chunk_map := alistInsert q.chunk_map p.tsn p } := by
  obtain ⟨hnd, hb, hs⟩ : _ ∧ _ ∧ _ := ⟨hw.1, hw.2.1, hw.2.2⟩
  have hmem : p.tsn ∉ q.chunk_map.map Prod.fst := by
    intro hmem
    rw [← alistContains_iff, hf] at hmem
    exact Bool.noConfusion hmem
  have hins : alistInsert q.chunk_map p.tsn p = q.chunk_map ++ [(p.tsn, p)] := by
    unfold alistInsert
    rw [if_neg (by simp [hf])]
  have hperm : (q.chunk_map.map Prod.fst ++ [p.tsn]).Perm
      (p.tsn :: q.chunk_map.map Prod.fst) := List.perm_append_singleton _ _
  refine ⟨?_, ?_, ?_⟩
  · show ((alistInsert q.chunk_map p.tsn p).map Prod.fst).Nodup
    rw [hins, List.map_append]
    exact hperm.nodup_iff.mpr (List.nodup_cons.mpr ⟨hmem, hnd⟩)
  · show q.n_bytes + p.user_data.length = _
    have hb' : q.n_bytes = pqStoredBytes q := hb
    show q.n_bytes + p.user_data.length =
      ((alistInsert q.chunk_map p.tsn p).map fun kv => kv.snd.user_data.length).sum
    rw [hins, List.map_append, List.sum_append, hb']
    simp [pqStoredBytes]
  · show ((updateSortedKeys (q.sorted ++ [p.tsn]) : List Nat) : Multiset Nat) =
      (((alistInsert q.chunk_map p.tsn p).map Prod.fst : List Nat) : Multiset Nat)
    rw [Multiset.coe_eq_coe, hins, List.map_append]
    refine (updateSortedKeys_perm _).trans ?_
    exact List.Perm.append_right _ (Multiset.coe_eq_coe.mp hs)

/-- `pop` preserves well-formedness. -/
theorem pqWF_pop (q : PayloadQueue) (tsn : Nat) (hw : pqWF q) :
    pqWF (q.pop tsn).snd := by
  obtain ⟨hnd, hb, hs⟩ : _ ∧ _ ∧ _ := ⟨hw.1, hw.2.1, hw.2.2⟩
  cases hq : q.sorted with
  | nil =>
    have hpop : (q.pop tsn).snd = q := by
      simp [PayloadQueue.pop, hq]
    rw [hpop]
    exact hw
  | cons t0 rest =>
    by_cases ht : (tsn == t0) = true
    · have htn : tsn = t0 := by simpa using ht
      have hperm0 : q.sorted.Perm (q.chunk_map.map Prod.fst) := Multiset.coe_eq_coe.mp hs
      have hmem : tsn ∈ q.chunk_map.map Prod.fst := by
        refine hperm0.mem_iff.mp ?_
        rw [hq, htn]
        exact List.mem_cons_self _ _
      obtain ⟨c, hget⟩ := mem_keys_alistGet_some _ _ hmem
      have hpop : (q.pop tsn).snd =
          { q with
            sorted := rest,
            chunk_map := alistRemove q.chunk_map tsn,
            n_bytes := q.n_bytes - c.user_data.length } := by
        simp [PayloadQueue.pop, hq, ht, hget]
      rw [hpop]
      have hdec := alist_decomp q.chunk_map tsn c hnd hget
      have hkeys : (q.chunk_map.map Prod.fst).Perm
          (tsn :: (alistRemove q.chunk_map tsn).map Prod.fst) := by
        simpa using hdec.map Prod.fst
      have hnd2 : ((alistRemove q.chunk_map tsn).map Prod.fst).Nodup :=
        (List.nodup_cons.mp (hkeys.nodup_iff.mp hnd)).2
      have hbytes : pqStoredBytes q = c.user_data.length +
          ((alistRemove q.chunk_map tsn).map fun kv => kv.snd.user_data.length).sum := by
        unfold pqStoredBytes
        rw [(hdec.map fun kv => kv.snd.user_data.length).sum_eq]
        simp
      refine ⟨hnd2, ?_, ?_⟩
      · show q.n_bytes - c.user_data.length =
          ((alistRemove q.chunk_map tsn).map fun kv => kv.snd.user_data.length).sum
        have hb' : q.n_bytes = pqStoredBytes q := hb
        omega
      · show ((rest : List Nat) : Multiset Nat) =
          (((alistRemove q.chunk_map tsn).map Prod.fst : List Nat) : Multiset Nat)
        rw [Multiset.coe_eq_coe]
        have hsr : (t0 :: rest).Perm
            (tsn :: (alistRemove q.chunk_map tsn).map Prod.fst) :=
          (hq ▸ hperm0).trans hkeys
        rw [← htn] at hsr
        exact hsr.cons_inv
    · have hpop : (q.pop tsn).snd = q := by
        simp [PayloadQueue.pop, hq, ht]
      rw [hpop]
      exact hw

/-- `mark_as_acked` preserves well-formedness: the freed bytes leave both the
counter and the stored sum. -/
theorem pqWF_mark (q : PayloadQueue) (tsn : Nat) (hw : pqWF q) :
    pqWF (q.mark_as_acked tsn).snd := by
  obtain ⟨hnd, hb, hs⟩ : _ ∧ _ ∧ _ := ⟨hw.1, hw.2.1, hw.2.2⟩
  cases hget : alistGet q.chunk_map tsn with
  | none =>
    have hmk : (q.mark_as_acked tsn).snd = q := by
      simp [PayloadQueue.mark_as_acked, hget]
    rw [hmk]
    exact hw
  | some c =>
    have hcon : alistContains q.chunk_map tsn = true :=
      (alistContains_iff _ _).mpr (alistGet_some_mem_keys _ _ c hget)
    obtain ⟨cP, hcP⟩ :
        ∃ cP, { c with acked := true, retransmit := false, user_data := [] } = cP :=
      ⟨_, rfl⟩
    have hcPud : cP.user_data = [] := by rw [← hcP]
    have hmk : (q.mark_as_acked tsn).snd =
        { q with
          chunk_map := q.chunk_map.map fun kv =>
            if kv.fst == tsn then (tsn, cP) else kv,
          n_bytes := q.n_bytes - c.user_data.length } := by
      simp [PayloadQueue.mark_as_acked, hget, alistInsert, hcon, hcP]
    rw [hmk]
    have hdec := alist_decomp q.chunk_map tsn c hnd hget
    have hkeys : (q.chunk_map.map Prod.fst).Perm
        (tsn :: (alistRemove q.chunk_map tsn).map Prod.fst) := by
      simpa using hdec.map Prod.fst
    have hnotmem : tsn ∉ (alistRemove q.chunk_map tsn).map Prod.fst :=
      (List.nodup_cons.mp (hkeys.nodup_iff.mp hnd)).1
    have hpf : (q.chunk_map.map fun kv => if kv.fst == tsn then (tsn, cP) else kv).Perm
        ((tsn, cP) :: alistRemove q.chunk_map tsn) := by
      have h0 := hdec.map fun kv => if kv.fst == tsn then (tsn, cP) else kv
      rw [List.map_cons] at h0
      rw [if_pos (show (((tsn, c) : Nat × ChunkPayloadData).fst == tsn) = true by simp)] at h0
      rw [alist_replace_of_not_mem _ tsn cP hnotmem] at h0
      exact h0
    refine ⟨?_, ?_, ?_⟩
    · show ((q.chunk_map.map fun kv =>
          if kv.fst == tsn then (tsn, cP) else kv).map Prod.fst).Nodup
      rw [alist_replace_keys]
      exact hnd
    · show q.n_bytes - c.user_data.length =
        ((q.chunk_map.map fun kv => if kv.fst == tsn then (tsn, cP) else kv).map
          fun kv => kv.snd.user_data.length).sum
      have h1 : ((q.chunk_map.map fun kv => if kv.fst == tsn then (tsn, cP) else kv).map
          fun kv => kv.snd.user_data.length).sum =
          ((alistRemove q.chunk_map tsn).map fun kv => kv.snd.user_data.length).sum := by
        rw [(hpf.map fun kv => kv.snd.user_data.length).sum_eq]
        simp [hcPud]
      have h2 : pqStoredBytes q = c.user_data.length +
          ((alistRemove q.chunk_map tsn).map fun kv => kv.snd.user_data.length).sum := by
        unfold pqStoredBytes
        rw [(hdec.map fun kv => kv.snd.user_data.length).sum_eq]
        simp
      have hb' : q.n_bytes = pqStoredBytes q := hb
      omega
    · show ((q.sorted : List Nat) : Multiset Nat) =
        (((q.chunk_map.map fun kv => if kv.fst == tsn then (tsn, cP) else kv).map
          Prod.fst : List Nat) : Multiset Nat)
      rw [alist_replace_keys]
      exact hs

/-- Every queue reachable under the fresh-TSN discipline is well formed. -/
theorem c10_strong (q : PayloadQueue) (h : ReachablePQFresh q) : pqWF q := by
  induction h with
  | empty => exact ⟨List.nodup_nil, rfl, rfl⟩
  | push q p ct h ih =>
    unfold PayloadQueue.push
    split
    · exact ih
    next hcond =>
      have hf : alistContains q.chunk_map p.tsn = false := by
        simp at hcond
        exact hcond.1
      exact pqWF_insert_fresh q p ih hf
  | pushNoCheck q p hf h ih => exact pqWF_insert_fresh q p ih hf
  | pop q tsn h ih => exact pqWF_pop q tsn ih
  | mark q tsn h ih => exact pqWF_mark q tsn ih

/-- C10 (amended): for every payload queue reachable by `push`,
`push_no_check`, `pop` and `mark_as_acked` under the fresh-TSN discipline the
association observes (`push_no_check` only ever receives a TSN not yet
stored), `get_num_bytes` equals the sum of the stored chunks' payload
lengths, and the sorted TSN list holds exactly the keys of the chunk map. -/
theorem c10_queue_invariant (q : PayloadQueue) (h : ReachablePQFresh q) :
    pqInvariant q :=
  (c10_strong q h).2

/-- C10 (counterexample): taken literally over arbitrary operation sequences
the claim fails — two `push_no_check` calls with the same TSN double-count
the bytes and duplicate the sorted key. -/
theorem c10_counterexample : ReachablePQ c10Bad ∧ ¬ pqInvariant c10Bad :=
  ⟨ReachablePQ.pushNoCheck _ c10Chunk
      (ReachablePQ.pushNoCheck _ c10Chunk ReachablePQ.empty),
   fun h => absurd h.1 (by decide)⟩

/-- C10 (witness): the amended invariant holds for the queue reached by one
checked push. -/
theorem c10_witness : ReachablePQFresh c10WQueue ∧ pqInvariant c10WQueue :=
  ⟨ReachablePQFresh.push {} c10WChunk 0 ReachablePQFresh.empty,
   c10_queue_invariant c10WQueue
     (ReachablePQFresh.push {} c10WChunk 0 ReachablePQFresh.empty)⟩
